import Mathlib

/-!
# kubeclient: idempotent "apply" against a cluster object store

A shallow embedding of `client.go` (package `kubeclient`) and the properties of
`Client.Apply` and `isNotFound`.

The Go file is one linear decision sequence: `Get`, then `Create`, `Update` or
nothing.  Store calls and log events are side effects in Go; here they are
threaded through an explicit `World` value that records, in order, every store
call issued and every log event emitted.

What the Go file takes from other packages is modelled in namespaces carrying
the package's name (`cmp`, `meta`, `runtime`, `client`, `logf`, `fmt`, `http`).
-/

set_option linter.dupNamespace false

/-! ## Reflected Go values (what `cmp` traverses) -/

/-- Modelled from the spec: the "exported state" of an object that the
structural diff traverses (the Go values behind the API types, which live
outside the file).  A Go value as reflection sees it.  Pointers are transparent (a pointer
indirection adds no struct-field step to a path); `null` is a nil pointer, nil
slice, nil map or nil interface, and is different from an empty slice or map.
A map is listed in the sorted key order in which `cmp` visits it.  Floating
point values are left out. -/
inductive Value where
  | null : Value
  | bool (b : Bool) : Value
  | int (n : Int) : Value
  | str (s : String) : Value
  | struct (fields : List (String × Value)) : Value
  | slice (elems : List Value) : Value
  | map (entries : List (String × Value)) : Value

/-! ## `k8s.io/apimachinery/pkg/apis/meta/v1` -/

namespace meta

/-- Modelled from the spec: the `metav1.TypeMeta` struct (Kind and the schema
API-version tag). -/
structure TypeMeta where
  Kind : String
  APIVersion : String

/-- Modelled from the spec: the `metav1.ObjectMeta` struct: the identity and the
labels/annotations that the caller controls, and the server-managed fields. -/
structure ObjectMeta where
  Name : String
  Namespace : String
  SelfLink : String
  UID : String
  ResourceVersion : String
  Generation : Int
  CreationTimestamp : Value
  Labels : Value
  Annotations : Value
  Finalizers : Value
  ManagedFields : Value

/-- Modelled from the spec: the `metav1.Status` carried by an API error, whose
`Code` tells NotFound from other errors. -/
structure Status where
  Code : Int
  Reason : String
  Message : String

end meta

/-- Modelled from the spec: the object model of section 6 (Kind, Namespace, Name,
resource-version, Spec, Metadata).  A Kubernetes API object: a struct embedding
`TypeMeta` and `ObjectMeta` next to its kind-specific `Spec` and `Status`.
Every value of this type has the method sets of `runtime.Object` and of
`meta.Object`. -/
structure Resource where
  TypeMeta : meta.TypeMeta
  ObjectMeta : meta.ObjectMeta
  Spec : Value
  Status : Value

namespace Resource

/-- The `GetObjectKind().GroupVersionKind().Kind` accessor chain of `TypeMeta`. -/
def Kind (r : Resource) : String := r.TypeMeta.Kind

/-- The `GetNamespace` accessor of `ObjectMeta`. -/
def GetNamespace (r : Resource) : String := r.ObjectMeta.Namespace

/-- The `GetName` accessor of `ObjectMeta`. -/
def GetName (r : Resource) : String := r.ObjectMeta.Name

/-- The `GetResourceVersion` accessor of `ObjectMeta`. -/
def GetResourceVersion (r : Resource) : String := r.ObjectMeta.ResourceVersion

/-- The `SetResourceVersion` setter of `ObjectMeta`: writes that one field. -/
def SetResourceVersion (r : Resource) (version : String) : Resource :=
  { r with ObjectMeta := { r.ObjectMeta with ResourceVersion := version } }

/-- The struct as reflection sees it: fields in declaration order, embedded
structs under their type name. -/
def reflect (r : Resource) : Value :=
  .struct [
    ("TypeMeta", .struct [
      ("Kind", .str r.TypeMeta.Kind),
      ("APIVersion", .str r.TypeMeta.APIVersion)]),
    ("ObjectMeta", .struct [
      ("Name", .str r.ObjectMeta.Name),
      ("Namespace", .str r.ObjectMeta.Namespace),
      ("SelfLink", .str r.ObjectMeta.SelfLink),
      ("UID", .str r.ObjectMeta.UID),
      ("ResourceVersion", .str r.ObjectMeta.ResourceVersion),
      ("Generation", .int r.ObjectMeta.Generation),
      ("CreationTimestamp", r.ObjectMeta.CreationTimestamp),
      ("Labels", r.ObjectMeta.Labels),
      ("Annotations", r.ObjectMeta.Annotations),
      ("Finalizers", r.ObjectMeta.Finalizers),
      ("ManagedFields", r.ObjectMeta.ManagedFields)]),
    ("Spec", r.Spec),
    ("Status", r.Status)]

end Resource

/-! ## `k8s.io/apimachinery/pkg/runtime` -/

namespace runtime

/-- Modelled from the spec: the "polymorphic store return" of section 4.1,
step 8.  A value of interface type `runtime.Object`.  `resource` holds a value
whose dynamic type also has the `meta.Object` method set; `other` holds one that
has not.  Which of the two the fetched object is, is left to the store's Get. -/
inductive Object where
  | resource (o : Resource) : Object
  | other (v : Value) : Object

/-- The type assertion `o.(meta.Object)`. -/
def Object.asMetaObject : Object → Option Resource
  | .resource o => some o
  | .other _ => none

end runtime

/-- The `DeepCopyObject` method: an independent copy (values are immutable
here, so the copy is the value itself), returned as a `runtime.Object`. -/
def Resource.DeepCopyObject (r : Resource) : runtime.Object := .resource r

/-! ## Errors: `error`, `k8s.io/apimachinery/pkg/api/errors`, `fmt`, `net/http` -/

/-- Modelled from the spec: the error taxonomy of section 7, as Go error values.
A non-nil Go `error` value, by dynamic type: a `*errors.StatusError`, the
plain string error that `fmt.Errorf` without `%w` and `errors.New` build, or
an error of some other type that wraps an inner error. -/
inductive GoError where
  | statusError (ErrStatus : meta.Status) : GoError
  | errorString (s : String) : GoError
  | wrapError (msg : String) (err : GoError) : GoError

/-- The `Error()` method: the message of an error. -/
def GoError.Error : GoError → String
  | .statusError st => st.Message
  | .errorString s => s
  | .wrapError msg _ => msg

/-- The type assertion `err.(*errors.StatusError)` followed by `Status()`:
it looks at the dynamic type of `err` itself and unwraps nothing. -/
def GoError.asStatusError : GoError → Option meta.Status
  | .statusError st => some st
  | _ => none

namespace http

/-- The constant `http.StatusNotFound`. -/
def StatusNotFound : Int := 404

end http

namespace fmt

/-- The call `fmt.Errorf("invalid object %s", kind)`, already formatted: no
`%w` verb, so the result is a plain string error. -/
def Errorf (formatted : String) : GoError := .errorString formatted

end fmt

/-! ## `github.com/google/go-cmp/cmp` -/

namespace cmp

/-- Modelled from the spec: one step of a field path (`cmp.PathStep`). -/
inductive PathStep where
  | StructField (name : String) : PathStep
  | SliceIndex (key : Nat) : PathStep
  | MapIndex (key : String) : PathStep

/-- A `cmp.Path`: the steps from the root to a node. -/
abbrev Path := List PathStep

/-- The struct-field names along a path. -/
def Path.fieldNames : Path → List String
  | [] => []
  | .StructField name :: rest => name :: Path.fieldNames rest
  | .SliceIndex _ :: rest => Path.fieldNames rest
  | .MapIndex _ :: rest => Path.fieldNames rest

/-- Modelled from the spec: the text of a field path, which the filter compares
with the entries of the exclusion table.  The `Path.String` method: the
simplified path, which "only contains struct field accesses".  Go joins
"." followed by the name for every struct field and trims one leading ".",
which is the names joined by ".". -/
def Path.String (pa : Path) : String := ".".intercalate (Path.fieldNames pa)

/-- Modelled from the spec: the path-based exclusion filter of the diff.
The `cmp.Option` values the file builds: `cmp.Ignore()` and
`cmp.FilterPath(f, opt)`. -/
inductive Opt where
  | Ignore : Opt
  | FilterPath (f : Path → Bool) (opt : Opt) : Opt

/-- Whether an option makes the comparison skip the node at path `pa`:
`Ignore` always does, `FilterPath f opt` does where `f` holds and `opt` does. -/
def Opt.ignores : Opt → Path → Bool
  | .Ignore, _ => true
  | .FilterPath f opt, pa => f pa && Opt.ignores opt pa

mutual
/-- Modelled from the spec: the "structural, deep, field-path-aware comparison
with a path-based exclusion filter" of section 4.1 (`cmp.Diff` of go-cmp, which
is outside the file).  At every node the options are tried first, and an
ignored node is not descended into; otherwise values of basic kind are compared
with `==`, structs, slices and maps are traversed, and values of different
kinds are reported.  Returns the simplified paths of the nodes reported as
different, in traversal order. -/
def compareAny (opt : Opt) (pa : Path) (x y : Value) : List String :=
  if Opt.ignores opt pa then [] else
  match x, y with
  | .null, .null => []
  | .bool a, .bool b => if a = b then [] else [Path.String pa]
  | .int a, .int b => if a = b then [] else [Path.String pa]
  | .str a, .str b => if a = b then [] else [Path.String pa]
  | .struct fx, .struct fy => compareStruct opt pa fx fy
  | .slice xs, .slice ys => compareSlice opt pa 0 xs ys
  | .map mx, .map my => compareMap opt pa mx my
  | _, _ => [Path.String pa]
termination_by structural x
/-- Struct traversal: field by field, each under a `StructField` step; two
structs with different fields are of different types and are reported. -/
def compareStruct (opt : Opt) (pa : Path) (fx fy : List (String × Value)) : List String :=
  match fx, fy with
  | [], [] => []
  | (n, v) :: fx, (m, w) :: fy =>
    if n = m then
      compareAny opt (pa ++ [.StructField n]) v w ++ compareStruct opt pa fx fy
    else [Path.String pa]
  | _, _ => [Path.String pa]
termination_by structural fx
/-- Slice traversal: element by element, each under a `SliceIndex` step; a
missing or extra element is reported.  (go-cmp aligns the two slices by an edit
script before reporting; nothing is reported exactly when the slices have the
same length and no pair of elements at the same index reports anything.) -/
def compareSlice (opt : Opt) (pa : Path) (i : Nat) (xs ys : List Value) : List String :=
  match xs, ys with
  | [], [] => []
  | v :: xs, w :: ys =>
    compareAny opt (pa ++ [.SliceIndex i]) v w ++ compareSlice opt pa (i + 1) xs ys
  | _, _ => [Path.String pa]
termination_by structural xs
/-- Map traversal in sorted key order, each entry under a `MapIndex` step; a
key present on one side only is reported. -/
def compareMap (opt : Opt) (pa : Path) (mx my : List (String × Value)) : List String :=
  match mx, my with
  | [], [] => []
  | (k, v) :: mx, (l, w) :: my =>
    if k = l then
      compareAny opt (pa ++ [.MapIndex k]) v w ++ compareMap opt pa mx my
    else [Path.String pa]
  | _, _ => [Path.String pa]
termination_by structural mx
end

/-- Modelled from the spec: the diff text, of which the file uses only whether
it is empty.  One line per reported node, empty when nothing is reported. -/
def render : List String → String
  | [] => ""
  | p :: ps => "~ " ++ p ++ "\n" ++ render ps

/-- The call `cmp.Diff(x, y, opts)` on two API objects of the same Go type:
the report of the comparison from the root, "" when nothing differs. -/
def Diff (x y : Resource) (opts : Opt) : String :=
  render (compareAny opts [] x.reflect y.reflect)

end cmp

/-! ## `sigs.k8s.io/controller-runtime/pkg/client` -/

namespace client

/-- The `client.ObjectKey` struct. -/
structure ObjectKey where
  Namespace : String
  Name : String

/-- Modelled from the spec: the ObjectStore collaborator of section 6, with
`Get(key) -> Object | NotFoundError | OtherError`, `Create(Object) -> () | Error`
and `Update(Object) -> () | Error`.  The methods of the `client.Client`
interface that the file calls, over a store whose state has type `σ`.  `Get`
fills the object it is handed and returns it with the error; `Create` and
`Update` return an error or nil and do not write into the object they are
handed. -/
structure Client (σ : Type) where
  Get : σ → ObjectKey → runtime.Object → Option GoError × runtime.Object × σ
  Create : σ → runtime.Object → Option GoError × σ
  Update : σ → runtime.Object → Option GoError × σ

/-- Modelled from the spec: the same ObjectStore collaborator, seen as the Go
interface hands it the caller's object: `Create(ctx, obj)` and `Update(ctx, obj)`
receive a pointer and may write through it (an API-server client stores the
server's answer into `obj`).  `Create` and `Update` therefore also return the
object as the call leaves it; the dynamic type behind the pointer cannot
change. -/
structure PointerClient (σ : Type) where
  Get : σ → ObjectKey → runtime.Object → Option GoError × runtime.Object × σ
  Create : σ → Resource → Option GoError × Resource × σ
  Update : σ → Resource → Option GoError × Resource × σ

/-- A store that does not write into the object handed to Create and Update,
as a `PointerClient`: the object comes back as it was handed over. -/
def Client.asPointerClient {σ : Type} (cl : Client σ) : PointerClient σ :=
  { Get := cl.Get,
    Create := fun st r => ((cl.Create st (.resource r)).1, r, (cl.Create st (.resource r)).2),
    Update := fun st r => ((cl.Update st (.resource r)).1, r, (cl.Update st (.resource r)).2) }

end client

/-! ## `sigs.k8s.io/controller-runtime/pkg/log` -/

namespace logf

/-- Modelled from the spec: the structured logger of section 6, accepting
key-value context.  A named logger with its context. -/
structure Logger where
  name : String
  values : List (String × String)

/-- The `WithName` method on the root logger `logf.Log`. -/
def WithName (name : String) : Logger := { name := name, values := [] }

/-- The `WithValues` method: the same logger with more context. -/
def Logger.WithValues (l : Logger) (kvs : List (String × String)) : Logger :=
  { l with values := l.values ++ kvs }

/-- One emitted informational event. -/
structure Event where
  logger : Logger
  msg : String

end logf

/-! ## Effects of one call, made explicit -/

/-- One call issued to the store, with the object handed over. -/
inductive Call where
  | Get (key : client.ObjectKey) (obj : runtime.Object) : Call
  | Create (obj : runtime.Object) : Call
  | Update (obj : runtime.Object) : Call

/-- Whether a store call is a write (`Create` or `Update`). -/
def Call.isWrite : Call → Bool
  | .Get _ _ => false
  | .Create _ => true
  | .Update _ => true

/-- Everything outside the caller's object that a call can change: the store's
state, the store calls issued so far and the log events emitted so far. -/
structure World (σ : Type) where
  store : σ
  calls : List Call
  events : List logf.Event

/-- A world in which nothing has been called or logged yet. -/
def World.init {σ : Type} (st : σ) : World σ := { store := st, calls := [], events := [] }

/-- The `Info` method of a logger: emits one event. -/
def logf.Logger.Info {σ : Type} (l : logf.Logger) (w : World σ) (msg : String) : World σ :=
  { w with events := w.events ++ [{ logger := l, msg := msg }] }

/-- The messages of the events emitted, in order. -/
def World.messages {σ : Type} (w : World σ) : List String := w.events.map (fun e => e.msg)

/-- The writes among the store calls issued, in order. -/
def World.writes {σ : Type} (w : World σ) : List Call := w.calls.filter Call.isWrite

/-! ## `client.go` -/

namespace kubeclient

/-- The package-level `log`. -/
def log : logf.Logger := logf.WithName "kubeclient"

/-- The package-level `ignoredFields` array. -/
def ignoredFields : List String := [
  "ObjectMeta.SelfLink",
  "ObjectMeta.UID",
  "ObjectMeta.ResourceVersion",
  "ObjectMeta.Generation",
  "ObjectMeta.CreationTimestamp",
  "ObjectMeta.Finalizers",
  "ObjectMeta.ManagedFields",
  "TypeMeta.APIVersion"]

/-- The package-level `options`: ignore a node when some entry of
`ignoredFields` equals the node's `path.String()`. -/
def options : cmp.Opt :=
  .FilterPath (fun path => ignoredFields.any (fun p => p == cmp.Path.String path)) .Ignore

/-- The `Client` struct: it embeds a `client.Client`. -/
structure Client (σ : Type) where
  Client : client.Client σ

/-- The `resource` interface: `runtime.Object` together with `meta.Object`. -/
abbrev resource := Resource

/-- The constructor `New`. -/
def New {σ : Type} (cl : client.Client σ) : Client σ := { Client := cl }

/-- The function `isNotFound`. -/
def isNotFound (err : Option GoError) : Bool :=
  match err with
  | none => false
  | some e =>
    match e.asStatusError with
    | some status => status.Code == http.StatusNotFound
    | none => false

/-- The method `Client.Get`: delegates to the embedded client. -/
def Client.Get {σ : Type} (c : kubeclient.Client σ) (w : World σ) (key : client.ObjectKey)
    (obj : runtime.Object) : Option GoError × runtime.Object × World σ :=
  match c.Client.Get w.store key obj with
  | (err, obj', st) => (err, obj', { w with store := st, calls := w.calls ++ [.Get key obj] })

/-- The call `c.Client.Create(context.TODO(), r)`. -/
def Client.Create {σ : Type} (c : kubeclient.Client σ) (w : World σ) (obj : runtime.Object) :
    Option GoError × World σ :=
  match c.Client.Create w.store obj with
  | (err, st) => (err, { w with store := st, calls := w.calls ++ [.Create obj] })

/-- The call `c.Client.Update(context.TODO(), r)`. -/
def Client.Update {σ : Type} (c : kubeclient.Client σ) (w : World σ) (obj : runtime.Object) :
    Option GoError × World σ :=
  match c.Client.Update w.store obj with
  | (err, st) => (err, { w with store := st, calls := w.calls ++ [.Update obj] })

/-- The method `Client.Apply`.  Returns the error, the caller's object `r` as
the call leaves it, and the world after the call. -/
def Client.Apply {σ : Type} (c : kubeclient.Client σ) (w : World σ) (r : resource) :
    Option GoError × resource × World σ :=
  let kind := r.Kind
  let ns := r.GetNamespace
  let name := r.GetName
  let reqLog := log.WithValues [("kind", kind), ("namespace", ns), ("name", name)]
  let o := r.DeepCopyObject
  match c.Get w { Namespace := ns, Name := name } o with
  | (err, o, w) =>
    if isNotFound err then
      match c.Create w (.resource r) with
      | (some err, w) => (some err, r, w)
      | (none, w) => (none, r, reqLog.Info w "resource created")
    else if err.isSome then (err, r, w)
    else
      match o.asMetaObject with
      | some current =>
        let r := r.SetResourceVersion current.GetResourceVersion
        let diff := cmp.Diff current r options
        if diff ≠ "" then
          let w := reqLog.Info w ("resource changes:\n" ++ diff)
          match c.Update w (.resource r) with
          | (some err, w) => (some err, r, w)
          | (none, w) => (none, r, reqLog.Info w "resource updated")
        else (none, r, reqLog.Info w "resource unchanged")
      | none => (some (fmt.Errorf ("invalid object " ++ kind)), r, w)

/-- The key `Apply` looks up: the namespace and name of `r`. -/
def keyOf (r : resource) : client.ObjectKey := { Namespace := r.GetNamespace, Name := r.GetName }

/-- The logger `reqLog` of an `Apply` call on `r`. -/
def reqLogOf (r : resource) : logf.Logger :=
  log.WithValues [("kind", r.Kind), ("namespace", r.GetNamespace), ("name", r.GetName)]

/-- Two `Apply` calls in succession on the same caller object, with nothing
else touching the store in between: the second call starts from the store and
from the object that the first call left.  Each call starts from a world with no
calls and no events recorded, so that each result lists its own. -/
def applyTwice {σ : Type} (cl : client.Client σ) (st : σ) (r : resource) :
    (Option GoError × resource × World σ) × (Option GoError × resource × World σ) :=
  let first := (New cl).Apply (World.init st) r
  (first, (New cl).Apply (World.init first.2.2.store) first.2.1)

/-! ### `client.go`, with the caller's object shared with the store

`r` is a pointer in Go, and `c.Client.Create(context.TODO(), r)` and
`c.Client.Update(context.TODO(), r)` hand that pointer to the store.  The
definitions below are the same functions over a `client.PointerClient`, where
what the store leaves in `r` is what the caller gets back. -/

namespace byPointer

/-- The `Client` struct: it embeds a `client.Client`. -/
structure Client (σ : Type) where
  Client : client.PointerClient σ

/-- The constructor `New`. -/
def New {σ : Type} (cl : client.PointerClient σ) : Client σ := { Client := cl }

/-- The method `Client.Get`: delegates to the embedded client. -/
def Client.Get {σ : Type} (c : kubeclient.byPointer.Client σ) (w : World σ)
    (key : client.ObjectKey) (obj : runtime.Object) :
    Option GoError × runtime.Object × World σ :=
  match c.Client.Get w.store key obj with
  | (err, obj', st) => (err, obj', { w with store := st, calls := w.calls ++ [.Get key obj] })

/-- The call `c.Client.Create(context.TODO(), r)`: returns the error, `r` as
the store leaves it, and the world. -/
def Client.Create {σ : Type} (c : kubeclient.byPointer.Client σ) (w : World σ)
    (r : resource) : Option GoError × resource × World σ :=
  match c.Client.Create w.store r with
  | (err, r', st) =>
    (err, r', { w with store := st, calls := w.calls ++ [.Create (.resource r)] })

/-- The call `c.Client.Update(context.TODO(), r)`: returns the error, `r` as
the store leaves it, and the world. -/
def Client.Update {σ : Type} (c : kubeclient.byPointer.Client σ) (w : World σ)
    (r : resource) : Option GoError × resource × World σ :=
  match c.Client.Update w.store r with
  | (err, r', st) =>
    (err, r', { w with store := st, calls := w.calls ++ [.Update (.resource r)] })

/-- The method `Client.Apply`.  Returns the error, the caller's object `r` as
the call leaves it, and the world after the call. -/
def Client.Apply {σ : Type} (c : kubeclient.byPointer.Client σ) (w : World σ)
    (r : resource) : Option GoError × resource × World σ :=
  let kind := r.Kind
  let ns := r.GetNamespace
  let name := r.GetName
  let reqLog := log.WithValues [("kind", kind), ("namespace", ns), ("name", name)]
  let o := r.DeepCopyObject
  match c.Get w { Namespace := ns, Name := name } o with
  | (err, o, w) =>
    if isNotFound err then
      match c.Create w r with
      | (some err, r, w) => (some err, r, w)
      | (none, r, w) => (none, r, reqLog.Info w "resource created")
    else if err.isSome then (err, r, w)
    else
      match o.asMetaObject with
      | some current =>
        let r := r.SetResourceVersion current.GetResourceVersion
        let diff := cmp.Diff current r options
        if diff ≠ "" then
          let w := reqLog.Info w ("resource changes:\n" ++ diff)
          match c.Update w r with
          | (some err, r, w) => (some err, r, w)
          | (none, r, w) => (none, r, reqLog.Info w "resource updated")
        else (none, r, reqLog.Info w "resource unchanged")
      | none => (some (fmt.Errorf ("invalid object " ++ kind)), r, w)

end byPointer

end kubeclient

/-! ## An in-memory object store -/

namespace store

/-- Modelled from the spec: the state of the ObjectStore of section 6: the
objects held, and the last resource-version handed out. -/
structure State where
  objects : List Resource
  version : Nat

/-- Whether an object has the given (Namespace, Name) key. -/
def hasKey (key : client.ObjectKey) (o : Resource) : Bool :=
  o.ObjectMeta.Namespace == key.Namespace && o.ObjectMeta.Name == key.Name

/-- The object stored under a key, if any. -/
def lookup (st : State) (key : client.ObjectKey) : Option Resource :=
  st.objects.find? (hasKey key)

/-- The NotFound error of the store. -/
def notFound : GoError := .statusError { Code := 404, Reason := "NotFound", Message := "not found" }

/-- The error of a Create whose key already exists. -/
def alreadyExists : GoError :=
  .statusError { Code := 409, Reason := "AlreadyExists", Message := "already exists" }

/-- The error of an Update that presents a stale resource-version. -/
def conflict : GoError :=
  .statusError { Code := 409, Reason := "Conflict", Message := "the object has been modified" }

/-- The error for an object the store cannot handle. -/
def badRequest : GoError :=
  .statusError { Code := 400, Reason := "BadRequest", Message := "not an API object" }

/-- What the store holds after Create: the object handed over, with the
server-managed identity, version and generation assigned by the store. -/
def created (n : Nat) (r : Resource) : Resource :=
  { r with ObjectMeta := { r.ObjectMeta with
      UID := "uid-" ++ toString n, ResourceVersion := toString n, Generation := 1 } }

/-- What the store holds after Update: the object handed over, with a new
resource-version and generation, and with the identity, self-link and creation
timestamp the store already held. -/
def updated (n : Nat) (old r : Resource) : Resource :=
  { r with ObjectMeta := { r.ObjectMeta with
      SelfLink := old.ObjectMeta.SelfLink, UID := old.ObjectMeta.UID,
      ResourceVersion := toString n, Generation := old.ObjectMeta.Generation + 1,
      CreationTimestamp := old.ObjectMeta.CreationTimestamp } }

/-- The objects held, with the one stored under a key replaced. -/
def replace (key : client.ObjectKey) (x : Resource) (objects : List Resource) : List Resource :=
  objects.map (fun o => if hasKey key o then x else o)

/-- Modelled from the spec: `Get(key) -> Object | NotFoundError`: fills the
object handed over with the stored one. -/
def Get (st : State) (key : client.ObjectKey) (obj : runtime.Object) :
    Option GoError × runtime.Object × State :=
  match lookup st key with
  | some s => (none, .resource s, st)
  | none => (some notFound, obj, st)

/-- Modelled from the spec: `Create(Object) -> () | Error`, "rejected if the key
already exists". -/
def Create (st : State) (obj : runtime.Object) : Option GoError × State :=
  match obj with
  | .other _ => (some badRequest, st)
  | .resource r =>
    match lookup st (kubeclient.keyOf r) with
    | some _ => (some alreadyExists, st)
    | none =>
      (none, { objects := st.objects ++ [created (st.version + 1) r],
               version := st.version + 1 })

/-- Modelled from the spec: `Update(Object) -> () | Error`, which "requires the
object's current version field to match the store's, else a conflict error". -/
def Update (st : State) (obj : runtime.Object) : Option GoError × State :=
  match obj with
  | .other _ => (some badRequest, st)
  | .resource r =>
    match lookup st (kubeclient.keyOf r) with
    | none => (some notFound, st)
    | some old =>
      if r.ObjectMeta.ResourceVersion ≠ old.ObjectMeta.ResourceVersion then (some conflict, st)
      else
        (none, { objects := replace (kubeclient.keyOf r) (updated (st.version + 1) old r)
                   st.objects,
                 version := st.version + 1 })

/-- The in-memory store as a `client.Client`. -/
def memory : client.Client State := { Get := Get, Create := Create, Update := Update }

/-- What a write leaves in the caller's object: the object as the store now
holds it under that key. -/
def answer (st : State) (r : Resource) : Resource :=
  match lookup st (kubeclient.keyOf r) with
  | some held => held
  | none => r

/-- Modelled from the spec: the in-memory store as a Go client that, after a
successful Create or Update, stores the object as now held (with the
server-managed fields the store assigned) into the object it was handed; on an
error the object is left as handed. -/
def pointerMemory : client.PointerClient State :=
  { Get := Get,
    Create := fun st r =>
      match Create st (.resource r) with
      | (none, st') => (none, answer st' r, st')
      | (some e, st') => (some e, r, st'),
    Update := fun st r =>
      match Update st (.resource r) with
      | (none, st') => (none, answer st' r, st')
      | (some e, st') => (some e, r, st') }

end store

/-! ## Concrete objects and stores used as instances -/

namespace Example

/-- Metadata of the object named "a" in namespace "ns", at a resource-version. -/
def objectMeta (version : String) : meta.ObjectMeta :=
  { Name := "a", Namespace := "ns", SelfLink := "", UID := "", ResourceVersion := version,
    Generation := 0, CreationTimestamp := .null, Labels := .null, Annotations := .null,
    Finalizers := .null, ManagedFields := .null }

/-- The object of the spec's scenarios: `{Name:"a", Namespace:"ns",
ResourceVersion: version, Spec:{Replicas: replicas}}`. -/
def deployment (version : String) (replicas : Int) : Resource :=
  { TypeMeta := { Kind := "Deployment", APIVersion := "apps/v1" },
    ObjectMeta := objectMeta version,
    Spec := .struct [("Replicas", .int replicas)], Status := .null }

/-- The stored object of the spec's scenarios, with every server-managed field
filled in by the store. -/
def stored : Resource :=
  { TypeMeta := { Kind := "Deployment", APIVersion := "apps/v1beta1" },
    ObjectMeta :=
      { Name := "a", Namespace := "ns", SelfLink := "/apis/apps/v1/namespaces/ns/deployments/a",
        UID := "uid-5", ResourceVersion := "5", Generation := 2,
        CreationTimestamp := .int 1600000000, Labels := .null, Annotations := .null,
        Finalizers := .slice [.str "foregroundDeletion"],
        ManagedFields := .slice [.struct [("Manager", .str "kubectl")]] },
    Spec := .struct [("Replicas", .int 3)], Status := .null }

/-- A store that answers every call with a fixed result. -/
def scripted (get : Option GoError × runtime.Object) (create update : Option GoError) :
    client.Client Unit :=
  { Get := fun st _ _ => (get.1, get.2, st),
    Create := fun st _ => (create, st),
    Update := fun st _ => (update, st) }

/-- An in-memory store that holds the stored object of the scenarios. -/
def holding : store.State := { objects := [stored], version := 5 }

/-- An error that is not a `StatusError` but wraps a NotFound one. -/
def wrappedNotFound : GoError := .wrapError "get failed" store.notFound

/-- A transport failure. -/
def unavailable : GoError := .errorString "connection refused"

end Example

/-! ## The filtered comparison -/

namespace cmp

theorem render_eq_empty_iff (ds : List String) : render ds = "" ↔ ds = [] := by
  cases ds with
  | nil => simp [render]
  | cons p ps =>
    simp only [render, reduceCtorEq, iff_false]
    intro h
    have := congrArg String.length h
    simp only [String.length_append] at this
    have h2 : ("~ ".length + p.length + "\n".length + (render ps).length) ≠ "".length := by
      have : "~ ".length = 2 := by decide
      have : "".length = 0 := by decide
      omega
    exact h2 this

theorem beneath_step {opt : Opt} {pa : Path}
    (h : ∀ ext : Path, Opt.ignores opt (pa ++ ext) = false) (step : PathStep) :
    ∀ ext : Path, Opt.ignores opt ((pa ++ [step]) ++ ext) = false := by
  intro ext
  have := h (step :: ext)
  simpa using this

mutual
theorem compareAny_eq_nil_iff (opt : Opt) (x : Value) :
    ∀ (pa : Path) (y : Value), (∀ ext : Path, Opt.ignores opt (pa ++ ext) = false) →
      (compareAny opt pa x y = [] ↔ x = y) := by
  intro pa y h
  have h0 : Opt.ignores opt pa = false := by simpa using h []
  cases x with
  | null => cases y <;> simp [compareAny, h0]
  | bool a => cases y <;> simp [compareAny, h0]
  | int a => cases y <;> simp [compareAny, h0]
  | str a => cases y <;> simp [compareAny, h0]
  | struct fx =>
    cases y <;> simp [compareAny, h0]
    exact compareStruct_eq_nil_iff opt fx pa _ h
  | slice xs =>
    cases y <;> simp [compareAny, h0]
    exact compareSlice_eq_nil_iff opt xs pa 0 _ h
  | map mx =>
    cases y <;> simp [compareAny, h0]
    exact compareMap_eq_nil_iff opt mx pa _ h
termination_by structural x
theorem compareStruct_eq_nil_iff (opt : Opt) (fx : List (String × Value)) :
    ∀ (pa : Path) (fy : List (String × Value)),
      (∀ ext : Path, Opt.ignores opt (pa ++ ext) = false) →
      (compareStruct opt pa fx fy = [] ↔ fx = fy) := by
  intro pa fy h
  match fx, fy with
  | [], [] => simp [compareStruct]
  | [], _ :: _ => simp [compareStruct]
  | _ :: _, [] => simp [compareStruct]
  | (n, v) :: fx, (m, w) :: fy =>
    have h1 := compareAny_eq_nil_iff opt v (pa ++ [.StructField n]) w (beneath_step h _)
    have h2 := compareStruct_eq_nil_iff opt fx pa fy h
    by_cases hnm : n = m
    · subst hnm
      simp [compareStruct, h1, h2]
    · simp [compareStruct, hnm]
termination_by structural fx
theorem compareSlice_eq_nil_iff (opt : Opt) (xs : List Value) :
    ∀ (pa : Path) (i : Nat) (ys : List Value),
      (∀ ext : Path, Opt.ignores opt (pa ++ ext) = false) →
      (compareSlice opt pa i xs ys = [] ↔ xs = ys) := by
  intro pa i ys h
  match xs, ys with
  | [], [] => simp [compareSlice]
  | [], _ :: _ => simp [compareSlice]
  | _ :: _, [] => simp [compareSlice]
  | v :: xs, w :: ys =>
    have h1 := compareAny_eq_nil_iff opt v (pa ++ [.SliceIndex i]) w (beneath_step h _)
    have h2 := compareSlice_eq_nil_iff opt xs pa (i + 1) ys h
    simp [compareSlice, h1, h2]
termination_by structural xs
theorem compareMap_eq_nil_iff (opt : Opt) (mx : List (String × Value)) :
    ∀ (pa : Path) (my : List (String × Value)),
      (∀ ext : Path, Opt.ignores opt (pa ++ ext) = false) →
      (compareMap opt pa mx my = [] ↔ mx = my) := by
  intro pa my h
  match mx, my with
  | [], [] => simp [compareMap]
  | [], _ :: _ => simp [compareMap]
  | _ :: _, [] => simp [compareMap]
  | (n, v) :: mx, (m, w) :: my =>
    have h1 := compareAny_eq_nil_iff opt v (pa ++ [.MapIndex n]) w (beneath_step h _)
    have h2 := compareMap_eq_nil_iff opt mx pa my h
    by_cases hnm : n = m
    · subst hnm
      simp [compareMap, h1, h2]
    · simp [compareMap, hnm]
termination_by structural mx
end

theorem compareAny_of_ignored (opt : Opt) (pa : Path) (x y : Value)
    (h : Opt.ignores opt pa = true) : compareAny opt pa x y = [] := by
  cases x <;> cases y <;> simp [compareAny, h]

theorem compareAny_struct (opt : Opt) (pa : Path) (fx fy : List (String × Value))
    (h : Opt.ignores opt pa = false) :
    compareAny opt pa (.struct fx) (.struct fy) = compareStruct opt pa fx fy := by
  simp [compareAny, h]

theorem compareAny_str (opt : Opt) (pa : Path) (a b : String)
    (h : Opt.ignores opt pa = false) :
    (compareAny opt pa (.str a) (.str b) = [] ↔ a = b) := by
  simp [compareAny, h]

theorem compareStruct_cons (opt : Opt) (pa : Path) (n : String) (v w : Value)
    (fx fy : List (String × Value)) :
    compareStruct opt pa ((n, v) :: fx) ((n, w) :: fy)
      = compareAny opt (pa ++ [.StructField n]) v w ++ compareStruct opt pa fx fy := by
  simp [compareStruct]

theorem compareStruct_nil (opt : Opt) (pa : Path) : compareStruct opt pa [] [] = [] := by
  simp [compareStruct]

theorem fieldNames_append (a b : Path) :
    Path.fieldNames (a ++ b) = Path.fieldNames a ++ Path.fieldNames b := by
  induction a with
  | nil => rfl
  | cons step rest ih => cases step <;> simp [Path.fieldNames, ih]

theorem intercalate_go_data (sep acc : String) (l : List String) :
    (String.intercalate.go acc sep l).data
      = acc.data ++ (l.map (fun a => sep.data ++ a.data)).flatten := by
  induction l generalizing acc with
  | nil => simp [String.intercalate.go]
  | cons a l ih => simp [String.intercalate.go, ih, String.data_append]

theorem pathText_append (pa ext : Path) (hne : Path.fieldNames pa ≠ []) :
    (Path.String pa).data <+: (Path.String (pa ++ ext)).data := by
  unfold Path.String
  rw [fieldNames_append]
  cases hp : Path.fieldNames pa with
  | nil => exact absurd hp hne
  | cons a l =>
    simp only [List.cons_append, String.intercalate, intercalate_go_data, List.map_append,
      List.flatten_append]
    exact ⟨_, by rw [List.append_assoc]⟩

end cmp

namespace kubeclient

theorem options_ignores (pa : cmp.Path) :
    cmp.Opt.ignores options pa = ignoredFields.any (fun p => p == cmp.Path.String pa) := by
  simp [options, cmp.Opt.ignores]

/-- A path whose simplified text is a prefix of no entry of `ignoredFields`
has no ignored node at or beneath it. -/
theorem options_beneath (pa : cmp.Path) (hne : cmp.Path.fieldNames pa ≠ [])
    (h : ∀ p ∈ ignoredFields, ¬ (cmp.Path.String pa).data <+: p.data) :
    ∀ ext : cmp.Path, cmp.Opt.ignores options (pa ++ ext) = false := by
  intro ext
  rw [options_ignores]
  simp only [List.any_eq_false, beq_iff_eq]
  intro p hp heq
  apply h p hp
  rw [heq]
  exact cmp.pathText_append pa ext hne

theorem beneath_Spec : ∀ ext : cmp.Path,
    cmp.Opt.ignores options ([.StructField "Spec"] ++ ext) = false :=
  options_beneath _ (by decide) (by decide)

theorem beneath_Status : ∀ ext : cmp.Path,
    cmp.Opt.ignores options ([.StructField "Status"] ++ ext) = false :=
  options_beneath _ (by decide) (by decide)

theorem beneath_Labels : ∀ ext : cmp.Path,
    cmp.Opt.ignores options ([.StructField "ObjectMeta", .StructField "Labels"] ++ ext) = false :=
  options_beneath _ (by decide) (by decide)

theorem beneath_Annotations : ∀ ext : cmp.Path,
    cmp.Opt.ignores options
      ([.StructField "ObjectMeta", .StructField "Annotations"] ++ ext) = false :=
  options_beneath _ (by decide) (by decide)

end kubeclient

namespace kubeclient

theorem compare_reflect_eq_nil_iff (x y : Resource) :
    cmp.compareAny options [] x.reflect y.reflect = [] ↔
      (x.TypeMeta.Kind = y.TypeMeta.Kind
        ∧ x.ObjectMeta.Name = y.ObjectMeta.Name
        ∧ x.ObjectMeta.Namespace = y.ObjectMeta.Namespace
        ∧ x.ObjectMeta.Labels = y.ObjectMeta.Labels
        ∧ x.ObjectMeta.Annotations = y.ObjectMeta.Annotations
        ∧ x.Spec = y.Spec
        ∧ x.Status = y.Status) := by
  have kL := cmp.compareAny_eq_nil_iff options x.ObjectMeta.Labels
    [.StructField "ObjectMeta", .StructField "Labels"] y.ObjectMeta.Labels beneath_Labels
  have kA := cmp.compareAny_eq_nil_iff options x.ObjectMeta.Annotations
    [.StructField "ObjectMeta", .StructField "Annotations"] y.ObjectMeta.Annotations
    beneath_Annotations
  have kS := cmp.compareAny_eq_nil_iff options x.Spec [.StructField "Spec"] y.Spec beneath_Spec
  have kT := cmp.compareAny_eq_nil_iff options x.Status [.StructField "Status"] y.Status
    beneath_Status
  have i0 : cmp.Opt.ignores options [] = false := by decide
  have i1 : cmp.Opt.ignores options [.StructField "TypeMeta"] = false := by decide
  have i2 : cmp.Opt.ignores options [.StructField "TypeMeta", .StructField "Kind"] = false := by
    decide
  have i3 : cmp.Opt.ignores options [.StructField "TypeMeta", .StructField "APIVersion"]
      = true := by decide
  have j0 : cmp.Opt.ignores options [.StructField "ObjectMeta"] = false := by decide
  have j1 : cmp.Opt.ignores options [.StructField "ObjectMeta", .StructField "Name"] = false := by
    decide
  have j2 : cmp.Opt.ignores options [.StructField "ObjectMeta", .StructField "Namespace"]
      = false := by decide
  have j3 : cmp.Opt.ignores options [.StructField "ObjectMeta", .StructField "SelfLink"]
      = true := by decide
  have j4 : cmp.Opt.ignores options [.StructField "ObjectMeta", .StructField "UID"] = true := by
    decide
  have j5 : cmp.Opt.ignores options [.StructField "ObjectMeta", .StructField "ResourceVersion"]
      = true := by decide
  have j6 : cmp.Opt.ignores options [.StructField "ObjectMeta", .StructField "Generation"]
      = true := by decide
  have j7 : cmp.Opt.ignores options [.StructField "ObjectMeta", .StructField "CreationTimestamp"]
      = true := by decide
  have j8 : cmp.Opt.ignores options [.StructField "ObjectMeta", .StructField "Finalizers"]
      = true := by decide
  have j9 : cmp.Opt.ignores options [.StructField "ObjectMeta", .StructField "ManagedFields"]
      = true := by decide
  simp only [Resource.reflect, cmp.compareStruct_cons, cmp.compareStruct_nil, List.nil_append,
    List.cons_append, List.append_nil, List.append_eq_nil, cmp.compareAny_struct,
    cmp.compareAny_str, cmp.compareAny_of_ignored, i0, i1, i2, i3, j0, j1, j2, j3, j4, j5, j6,
    j7, j8, j9, kL, kA, kS, kT, and_true, true_and]
  tauto

theorem Diff_eq_empty_iff (x y : Resource) :
    cmp.Diff x y options = "" ↔
      (x.TypeMeta.Kind = y.TypeMeta.Kind
        ∧ x.ObjectMeta.Name = y.ObjectMeta.Name
        ∧ x.ObjectMeta.Namespace = y.ObjectMeta.Namespace
        ∧ x.ObjectMeta.Labels = y.ObjectMeta.Labels
        ∧ x.ObjectMeta.Annotations = y.ObjectMeta.Annotations
        ∧ x.Spec = y.Spec
        ∧ x.Status = y.Status) := by
  rw [cmp.Diff, cmp.render_eq_empty_iff, compare_reflect_eq_nil_iff]

end kubeclient

/-! ## The outcomes of `Apply` -/

namespace kubeclient

theorem isNotFound_iff (err : Option GoError) :
    isNotFound err = true ↔ ∃ st : meta.Status, err = some (.statusError st) ∧ st.Code = 404 := by
  cases err with
  | none => simp [isNotFound]
  | some e =>
    cases e with
    | statusError st => simp [isNotFound, GoError.asStatusError, http.StatusNotFound]
    | errorString s => simp [isNotFound, GoError.asStatusError]
    | wrapError msg inner => simp [isNotFound, GoError.asStatusError]

section outcomes
variable {σ : Type} (c : Client σ) (w : World σ) (r : resource)

theorem Apply_createFailed (err : Option GoError) (o : runtime.Object) (s s' : σ) (e : GoError)
    (hget : c.Client.Get w.store (keyOf r) (.resource r) = (err, o, s))
    (hnf : isNotFound err = true)
    (hcreate : c.Client.Create s (.resource r) = (some e, s')) :
    c.Apply w r = (some e, r,
      { store := s', calls := w.calls ++ [.Get (keyOf r) (.resource r), .Create (.resource r)],
        events := w.events }) := by
  unfold keyOf at hget
  simp [kubeclient.Client.Apply, kubeclient.Client.Get, kubeclient.Client.Create,
    Resource.DeepCopyObject, hget, hnf, hcreate, keyOf]

theorem Apply_created (err : Option GoError) (o : runtime.Object) (s s' : σ)
    (hget : c.Client.Get w.store (keyOf r) (.resource r) = (err, o, s))
    (hnf : isNotFound err = true)
    (hcreate : c.Client.Create s (.resource r) = (none, s')) :
    c.Apply w r = (none, r,
      { store := s', calls := w.calls ++ [.Get (keyOf r) (.resource r), .Create (.resource r)],
        events := w.events ++ [{ logger := reqLogOf r, msg := "resource created" }] }) := by
  unfold keyOf at hget
  simp [kubeclient.Client.Apply, kubeclient.Client.Get, kubeclient.Client.Create,
    Resource.DeepCopyObject, hget, hnf, hcreate, keyOf, logf.Logger.Info, reqLogOf]

theorem Apply_getFailed (e : GoError) (o : runtime.Object) (s : σ)
    (hget : c.Client.Get w.store (keyOf r) (.resource r) = (some e, o, s))
    (hnf : isNotFound (some e) = false) :
    c.Apply w r = (some e, r,
      { store := s, calls := w.calls ++ [.Get (keyOf r) (.resource r)], events := w.events }) := by
  unfold keyOf at hget
  simp [kubeclient.Client.Apply, kubeclient.Client.Get,
    Resource.DeepCopyObject, hget, hnf, keyOf]

theorem Apply_invalid (v : Value) (s : σ)
    (hget : c.Client.Get w.store (keyOf r) (.resource r) = (none, .other v, s)) :
    c.Apply w r = (some (.errorString ("invalid object " ++ r.TypeMeta.Kind)), r,
      { store := s, calls := w.calls ++ [.Get (keyOf r) (.resource r)], events := w.events }) := by
  unfold keyOf at hget
  simp [kubeclient.Client.Apply, kubeclient.Client.Get, isNotFound, runtime.Object.asMetaObject,
    Resource.DeepCopyObject, hget, keyOf, fmt.Errorf, Resource.Kind]

theorem Apply_unchanged (current : Resource) (s : σ)
    (hget : c.Client.Get w.store (keyOf r) (.resource r) = (none, .resource current, s))
    (hdiff : cmp.Diff current (r.SetResourceVersion current.GetResourceVersion) options = "") :
    c.Apply w r = (none, r.SetResourceVersion current.GetResourceVersion,
      { store := s, calls := w.calls ++ [.Get (keyOf r) (.resource r)],
        events := w.events ++ [{ logger := reqLogOf r, msg := "resource unchanged" }] }) := by
  unfold keyOf at hget
  simp [kubeclient.Client.Apply, kubeclient.Client.Get, isNotFound, runtime.Object.asMetaObject,
    Resource.DeepCopyObject, hget, keyOf, hdiff, logf.Logger.Info, reqLogOf]

theorem Apply_updateFailed (current : Resource) (s s' : σ) (e : GoError)
    (hget : c.Client.Get w.store (keyOf r) (.resource r) = (none, .resource current, s))
    (hdiff : cmp.Diff current (r.SetResourceVersion current.GetResourceVersion) options ≠ "")
    (hupdate : c.Client.Update s (.resource (r.SetResourceVersion current.GetResourceVersion))
      = (some e, s')) :
    c.Apply w r = (some e, r.SetResourceVersion current.GetResourceVersion,
      { store := s',
        calls := w.calls ++ [.Get (keyOf r) (.resource r),
          .Update (.resource (r.SetResourceVersion current.GetResourceVersion))],
        events := w.events ++ [{ logger := reqLogOf r, msg := ("resource changes:\n" ++
          cmp.Diff current (r.SetResourceVersion current.GetResourceVersion) options) }] }) := by
  unfold keyOf at hget
  simp [kubeclient.Client.Apply, kubeclient.Client.Get, kubeclient.Client.Update, isNotFound,
    runtime.Object.asMetaObject,
    Resource.DeepCopyObject, hget, keyOf, hdiff, logf.Logger.Info, reqLogOf, hupdate]

theorem Apply_updated (current : Resource) (s s' : σ)
    (hget : c.Client.Get w.store (keyOf r) (.resource r) = (none, .resource current, s))
    (hdiff : cmp.Diff current (r.SetResourceVersion current.GetResourceVersion) options ≠ "")
    (hupdate : c.Client.Update s (.resource (r.SetResourceVersion current.GetResourceVersion))
      = (none, s')) :
    c.Apply w r = (none, r.SetResourceVersion current.GetResourceVersion,
      { store := s',
        calls := w.calls ++ [.Get (keyOf r) (.resource r),
          .Update (.resource (r.SetResourceVersion current.GetResourceVersion))],
        events := w.events ++ [{ logger := reqLogOf r, msg := ("resource changes:\n" ++
          cmp.Diff current (r.SetResourceVersion current.GetResourceVersion) options) },
          { logger := reqLogOf r, msg := "resource updated" }] }) := by
  unfold keyOf at hget
  simp [kubeclient.Client.Apply, kubeclient.Client.Get, kubeclient.Client.Update, isNotFound,
    runtime.Object.asMetaObject,
    Resource.DeepCopyObject, hget, keyOf, hdiff, logf.Logger.Info, reqLogOf, hupdate]

end outcomes

end kubeclient

/-! ## Properties of `Apply` -/

namespace kubeclient

/-- C1 (create-on-absent). Whenever Get for the key of `r` fails with a NotFound
error (a `StatusError` whose code is 404), `Apply(r)` issues exactly two store
calls, the Get and one Create; the Create is handed `r` exactly as the caller
supplied it; no Update is issued; `r` is left as supplied; and `Apply` returns
what that Create returned, hence nil when the Create succeeds. -/
theorem C1_create_on_absent {σ : Type} (cl : client.Client σ) (st : σ) (r : resource)
    (status : meta.Status) (o : runtime.Object) (s : σ)
    (hget : cl.Get st (keyOf r) r.DeepCopyObject = (some (.statusError status), o, s))
    (hcode : status.Code = 404) :
    ((New cl).Apply (World.init st) r).2.2.calls
        = [.Get (keyOf r) r.DeepCopyObject, .Create (.resource r)]
      ∧ ((New cl).Apply (World.init st) r).2.1 = r
      ∧ ((New cl).Apply (World.init st) r).1 = (cl.Create s (.resource r)).1 := by
  have hnf : isNotFound (some (.statusError status)) = true :=
    (isNotFound_iff _).2 ⟨status, rfl, hcode⟩
  rcases hc : cl.Create s (.resource r) with ⟨e, s'⟩
  cases e with
  | none =>
    rw [Apply_created (New cl) (World.init st) r _ o s s' hget hnf hc]
    simp [World.init, Resource.DeepCopyObject]
  | some e =>
    rw [Apply_createFailed (New cl) (World.init st) r _ o s s' e hget hnf hc]
    simp [World.init, Resource.DeepCopyObject]

/-- The instance of C1 in the spec's scenario: Get returns NotFound for key
("a","ns"), and Create succeeds. -/
theorem C1_create_on_absent_witness :
    ((New (Example.scripted (some store.notFound, .resource (Example.deployment "" 3)) none none)).Apply
        (World.init ()) (Example.deployment "" 3)).2.2.calls
        = [.Get (keyOf (Example.deployment "" 3)) (Example.deployment "" 3).DeepCopyObject,
            .Create (.resource (Example.deployment "" 3))]
      ∧ ((New (Example.scripted (some store.notFound, .resource (Example.deployment "" 3)) none none)).Apply
        (World.init ()) (Example.deployment "" 3)).2.1 = Example.deployment "" 3
      ∧ ((New (Example.scripted (some store.notFound, .resource (Example.deployment "" 3)) none none)).Apply
        (World.init ()) (Example.deployment "" 3)).1 = none :=
  C1_create_on_absent
    (Example.scripted (some store.notFound, .resource (Example.deployment "" 3)) none none) ()
    (Example.deployment "" 3) { Code := 404, Reason := "NotFound", Message := "not found" }
    (.resource (Example.deployment "" 3)) () rfl rfl

/-- C6 (invalid object). Whenever Get succeeds but the fetched object does not
expose the metadata capability, `Apply(r)` returns a non-nil error whose message
is exactly "invalid object " followed by the Kind of `r`, issues no store call
besides the Get (neither Create nor Update), and leaves `r` as supplied. -/
theorem C6_invalid_object {σ : Type} (cl : client.Client σ) (st : σ) (r : resource)
    (v : Value) (s : σ)
    (hget : cl.Get st (keyOf r) r.DeepCopyObject = (none, .other v, s)) :
    (∃ e : GoError, ((New cl).Apply (World.init st) r).1 = some e
        ∧ e.Error = "invalid object " ++ r.TypeMeta.Kind)
      ∧ ((New cl).Apply (World.init st) r).2.2.calls = [.Get (keyOf r) r.DeepCopyObject]
      ∧ ((New cl).Apply (World.init st) r).2.1 = r := by
  rw [Apply_invalid (New cl) (World.init st) r v s hget]
  exact ⟨⟨_, rfl, rfl⟩, by simp [World.init, Resource.DeepCopyObject], rfl⟩

/-- The instance of C6 for a store that fills the copy with an object that has
no metadata accessors. -/
theorem C6_invalid_object_witness :
    (∃ e : GoError,
        ((New (Example.scripted (none, .other .null) none none)).Apply (World.init ())
          (Example.deployment "" 3)).1 = some e
        ∧ e.Error = "invalid object Deployment")
      ∧ ((New (Example.scripted (none, .other .null) none none)).Apply (World.init ())
          (Example.deployment "" 3)).2.2.calls
        = [.Get (keyOf (Example.deployment "" 3)) (Example.deployment "" 3).DeepCopyObject]
      ∧ ((New (Example.scripted (none, .other .null) none none)).Apply (World.init ())
          (Example.deployment "" 3)).2.1 = Example.deployment "" 3 :=
  C6_invalid_object (Example.scripted (none, .other .null) none none) ()
    (Example.deployment "" 3) .null () rfl

end kubeclient

namespace kubeclient

/-- C5 (error passthrough). Every error the store returns to `Apply`, other than
a NotFound on Get, is what `Apply` returns, and it ends the call: a Get error
that is not a 404 `StatusError` is returned after the Get alone; a Create error
is returned after the Get and that single Create; an Update error is returned
after the Get and that single Update. -/
theorem C5_error_passthrough {σ : Type} (cl : client.Client σ) (st : σ) (r : resource)
    (e : GoError) :
    (∀ (o : runtime.Object) (s : σ),
        cl.Get st (keyOf r) r.DeepCopyObject = (some e, o, s) →
        (¬ ∃ status : meta.Status, e = .statusError status ∧ status.Code = 404) →
        ((New cl).Apply (World.init st) r).1 = some e
          ∧ ((New cl).Apply (World.init st) r).2.2.calls = [.Get (keyOf r) r.DeepCopyObject])
      ∧ (∀ (status : meta.Status) (o : runtime.Object) (s s' : σ),
        cl.Get st (keyOf r) r.DeepCopyObject = (some (.statusError status), o, s) →
        status.Code = 404 →
        cl.Create s (.resource r) = (some e, s') →
        ((New cl).Apply (World.init st) r).1 = some e
          ∧ ((New cl).Apply (World.init st) r).2.2.calls
            = [.Get (keyOf r) r.DeepCopyObject, .Create (.resource r)])
      ∧ (∀ (current : Resource) (s s' : σ),
        cl.Get st (keyOf r) r.DeepCopyObject = (none, .resource current, s) →
        cmp.Diff current (r.SetResourceVersion current.GetResourceVersion) options ≠ "" →
        cl.Update s (.resource (r.SetResourceVersion current.GetResourceVersion)) = (some e, s') →
        ((New cl).Apply (World.init st) r).1 = some e
          ∧ ((New cl).Apply (World.init st) r).2.2.calls
            = [.Get (keyOf r) r.DeepCopyObject,
                .Update (.resource (r.SetResourceVersion current.GetResourceVersion))]) := by
  refine ⟨?_, ?_, ?_⟩
  · intro o s hget hne
    have hnf : isNotFound (some e) = false := by
      cases h : isNotFound (some e) with
      | false => rfl
      | true =>
        obtain ⟨status, hs, hc⟩ := (isNotFound_iff _).1 h
        exact absurd ⟨status, Option.some.inj hs, hc⟩ hne
    rw [Apply_getFailed (New cl) (World.init st) r e o s hget hnf]
    simp [World.init, Resource.DeepCopyObject]
  · intro status o s s' hget hcode hc
    have hnf : isNotFound (some (.statusError status)) = true :=
      (isNotFound_iff _).2 ⟨status, rfl, hcode⟩
    rw [Apply_createFailed (New cl) (World.init st) r _ o s s' e hget hnf hc]
    simp [World.init, Resource.DeepCopyObject]
  · intro current s s' hget hdiff hu
    rw [Apply_updateFailed (New cl) (World.init st) r current s s' e hget hdiff hu]
    simp [World.init, Resource.DeepCopyObject]

/-- Instances of C5: a transport failure on Get, an AlreadyExists on Create
after a NotFound, and a version conflict on Update after a real difference. -/
theorem C5_error_passthrough_witness :
    (((New (Example.scripted (some Example.unavailable, .other .null) none none)).Apply
          (World.init ()) (Example.deployment "" 3)).1 = some Example.unavailable
        ∧ ((New (Example.scripted (some Example.unavailable, .other .null) none none)).Apply
          (World.init ()) (Example.deployment "" 3)).2.2.calls
          = [.Get (keyOf (Example.deployment "" 3)) (Example.deployment "" 3).DeepCopyObject])
      ∧ (((New (Example.scripted (some store.notFound, .other .null)
            (some store.alreadyExists) none)).Apply
          (World.init ()) (Example.deployment "" 3)).1 = some store.alreadyExists
        ∧ ((New (Example.scripted (some store.notFound, .other .null)
            (some store.alreadyExists) none)).Apply
          (World.init ()) (Example.deployment "" 3)).2.2.calls
          = [.Get (keyOf (Example.deployment "" 3)) (Example.deployment "" 3).DeepCopyObject,
              .Create (.resource (Example.deployment "" 3))])
      ∧ (((New (Example.scripted (none, .resource Example.stored) none
            (some store.conflict))).Apply
          (World.init ()) (Example.deployment "" 5)).1 = some store.conflict
        ∧ ((New (Example.scripted (none, .resource Example.stored) none
            (some store.conflict))).Apply
          (World.init ()) (Example.deployment "" 5)).2.2.calls
          = [.Get (keyOf (Example.deployment "" 5)) (Example.deployment "" 5).DeepCopyObject,
              .Update (.resource (Example.deployment "5" 5))]) :=
  ⟨(C5_error_passthrough
      (Example.scripted (some Example.unavailable, .other .null) none none) ()
      (Example.deployment "" 3) Example.unavailable).1 _ () rfl
      (by rintro ⟨status, h, _⟩; cases h),
    (C5_error_passthrough
      (Example.scripted (some store.notFound, .other .null) (some store.alreadyExists) none) ()
      (Example.deployment "" 3) store.alreadyExists).2.1
      { Code := 404, Reason := "NotFound", Message := "not found" } _ () () rfl rfl rfl,
    (C5_error_passthrough
      (Example.scripted (none, .resource Example.stored) none (some store.conflict)) ()
      (Example.deployment "" 5) store.conflict).2.2 Example.stored () () rfl (by decide) rfl⟩

end kubeclient

namespace kubeclient

/-- With the caller's object shared with the store: when Get succeeds with a
metadata object and the diff is empty, no Update is issued and `r` is left with
the fetched resource-version. -/
theorem byPointer_Apply_unchanged {σ : Type} (c : byPointer.Client σ) (w : World σ)
    (r : resource) (current : Resource) (s : σ)
    (hget : c.Client.Get w.store (keyOf r) (.resource r) = (none, .resource current, s))
    (hdiff : cmp.Diff current (r.SetResourceVersion current.GetResourceVersion) options = "") :
    c.Apply w r = (none, r.SetResourceVersion current.GetResourceVersion,
      { store := s, calls := w.calls ++ [.Get (keyOf r) (.resource r)],
        events := w.events ++ [{ logger := reqLogOf r, msg := "resource unchanged" }] }) := by
  unfold keyOf at hget
  simp [kubeclient.byPointer.Client.Apply, kubeclient.byPointer.Client.Get, isNotFound,
    runtime.Object.asMetaObject, Resource.DeepCopyObject, hget, keyOf, hdiff,
    logf.Logger.Info, reqLogOf]

/-- With the caller's object shared with the store: when Get succeeds with a
metadata object and the diff is not empty, Update is handed `r` with the fetched
resource-version, and `r` is left as that Update leaves it. -/
theorem byPointer_Apply_update {σ : Type} (c : byPointer.Client σ) (w : World σ)
    (r : resource) (current : Resource) (s : σ)
    (hget : c.Client.Get w.store (keyOf r) (.resource r) = (none, .resource current, s))
    (hdiff : cmp.Diff current (r.SetResourceVersion current.GetResourceVersion) options ≠ "") :
    (c.Apply w r).1
        = (c.Client.Update s (r.SetResourceVersion current.GetResourceVersion)).1
      ∧ (c.Apply w r).2.1
        = (c.Client.Update s (r.SetResourceVersion current.GetResourceVersion)).2.1
      ∧ (c.Apply w r).2.2.calls
        = w.calls ++ [.Get (keyOf r) (.resource r),
            .Update (.resource (r.SetResourceVersion current.GetResourceVersion))] := by
  unfold keyOf at hget
  rcases hu : c.Client.Update s (r.SetResourceVersion current.GetResourceVersion)
    with ⟨e, r', s'⟩
  cases e <;>
    simp [kubeclient.byPointer.Client.Apply, kubeclient.byPointer.Client.Get,
      kubeclient.byPointer.Client.Update, isNotFound, runtime.Object.asMetaObject,
      Resource.DeepCopyObject, hget, keyOf, hdiff, logf.Logger.Info, reqLogOf, hu]

/-- Over a store that does not write into the object handed to Create and
Update, the two embeddings of `Apply` agree. -/
theorem byPointer_Apply_asPointerClient {σ : Type} (cl : client.Client σ) (w : World σ)
    (r : resource) :
    (byPointer.New cl.asPointerClient).Apply w r = (New cl).Apply w r := by
  rcases hg : cl.Get w.store (keyOf r) (.resource r) with ⟨err, o, s⟩
  have hg' := hg
  unfold keyOf at hg'
  cases hnf : isNotFound err with
  | true =>
    rcases hc : cl.Create s (.resource r) with ⟨e, s'⟩
    cases e with
    | none =>
      rw [Apply_created (New cl) w r err o s s' hg hnf hc]
      simp [kubeclient.byPointer.Client.Apply, kubeclient.byPointer.Client.Get,
        kubeclient.byPointer.Client.Create, byPointer.New, client.Client.asPointerClient,
        Resource.DeepCopyObject, hg', hnf, hc, keyOf, logf.Logger.Info, reqLogOf]
    | some e =>
      rw [Apply_createFailed (New cl) w r err o s s' e hg hnf hc]
      simp [kubeclient.byPointer.Client.Apply, kubeclient.byPointer.Client.Get,
        kubeclient.byPointer.Client.Create, byPointer.New, client.Client.asPointerClient,
        Resource.DeepCopyObject, hg', hnf, hc, keyOf]
  | false =>
    cases err with
    | some e =>
      rw [Apply_getFailed (New cl) w r e o s hg hnf]
      simp [kubeclient.byPointer.Client.Apply, kubeclient.byPointer.Client.Get,
        byPointer.New, client.Client.asPointerClient, Resource.DeepCopyObject, hg', hnf, keyOf]
    | none =>
      cases o with
      | other v =>
        rw [Apply_invalid (New cl) w r v s hg]
        simp [kubeclient.byPointer.Client.Apply, kubeclient.byPointer.Client.Get,
          byPointer.New, client.Client.asPointerClient, Resource.DeepCopyObject, hg', hnf,
          keyOf, runtime.Object.asMetaObject, fmt.Errorf, Resource.Kind]
      | resource current =>
        by_cases hdiff :
          cmp.Diff current (r.SetResourceVersion current.GetResourceVersion) options = ""
        · rw [Apply_unchanged (New cl) w r current s hg hdiff]
          exact byPointer_Apply_unchanged (byPointer.New cl.asPointerClient) w r current s hg
            hdiff
        · rcases hu : cl.Update s
            (.resource (r.SetResourceVersion current.GetResourceVersion)) with ⟨e, s'⟩
          cases e with
          | none =>
            rw [Apply_updated (New cl) w r current s s' hg hdiff hu]
            simp [kubeclient.byPointer.Client.Apply, kubeclient.byPointer.Client.Get,
              kubeclient.byPointer.Client.Update, byPointer.New,
              client.Client.asPointerClient, Resource.DeepCopyObject, hg', hnf, hu, keyOf,
              runtime.Object.asMetaObject, hdiff, logf.Logger.Info, reqLogOf]
          | some e =>
            rw [Apply_updateFailed (New cl) w r current s s' e hg hdiff hu]
            simp [kubeclient.byPointer.Client.Apply, kubeclient.byPointer.Client.Get,
              kubeclient.byPointer.Client.Update, byPointer.New,
              client.Client.asPointerClient, Resource.DeepCopyObject, hg', hnf, hu, keyOf,
              runtime.Object.asMetaObject, hdiff, logf.Logger.Info, reqLogOf]

/-- C8, as amended. Whenever Get succeeds and the fetched object exposes
metadata, `Apply` sets the resource-version of `r` to the fetched object's
resource-version and leaves every other field of `r` as the caller supplied it,
whatever the fetched object holds in those fields; Get was handed the copy of
`r`, not `r`.  When the diff is empty no Update is issued and that object is `r`
after the call.  When the diff is not empty that object is what Update is
handed, and `r` after the call is what the store's Update left in it.  So `r`
after the call is that object whenever the store's Update does not write into
the object it is handed. -/
theorem C8_resource_version_injection {σ : Type} (cl : client.PointerClient σ) (st : σ)
    (r : resource) (current : Resource) (s : σ)
    (hget : cl.Get st (keyOf r) r.DeepCopyObject = (none, .resource current, s)) :
    ((byPointer.New cl).Apply (World.init st) r).2.2.calls.head?
        = some (.Get (keyOf r) r.DeepCopyObject)
      ∧ (cmp.Diff current { r with ObjectMeta :=
            { r.ObjectMeta with ResourceVersion := current.ObjectMeta.ResourceVersion } }
            options = "" →
          ((byPointer.New cl).Apply (World.init st) r).2.1
              = { r with ObjectMeta :=
                  { r.ObjectMeta with ResourceVersion := current.ObjectMeta.ResourceVersion } }
            ∧ ((byPointer.New cl).Apply (World.init st) r).2.2.calls
              = [.Get (keyOf r) r.DeepCopyObject])
      ∧ (cmp.Diff current { r with ObjectMeta :=
            { r.ObjectMeta with ResourceVersion := current.ObjectMeta.ResourceVersion } }
            options ≠ "" →
          ((byPointer.New cl).Apply (World.init st) r).2.2.calls
              = [.Get (keyOf r) r.DeepCopyObject,
                  .Update (.resource { r with ObjectMeta :=
                    { r.ObjectMeta with
                      ResourceVersion := current.ObjectMeta.ResourceVersion } })]
            ∧ ((byPointer.New cl).Apply (World.init st) r).2.1
              = (cl.Update s { r with ObjectMeta :=
                  { r.ObjectMeta with
                    ResourceVersion := current.ObjectMeta.ResourceVersion } }).2.1)
      ∧ ((cl.Update s { r with ObjectMeta :=
            { r.ObjectMeta with ResourceVersion := current.ObjectMeta.ResourceVersion } }).2.1
            = { r with ObjectMeta :=
                { r.ObjectMeta with ResourceVersion := current.ObjectMeta.ResourceVersion } } →
          ((byPointer.New cl).Apply (World.init st) r).2.1
            = { r with ObjectMeta :=
                { r.ObjectMeta with
                  ResourceVersion := current.ObjectMeta.ResourceVersion } }) := by
  have hR : ({ r with ObjectMeta :=
      { r.ObjectMeta with ResourceVersion := current.ObjectMeta.ResourceVersion } } : Resource)
      = r.SetResourceVersion current.GetResourceVersion := rfl
  rw [hR]
  by_cases hdiff :
    cmp.Diff current (r.SetResourceVersion current.GetResourceVersion) options = ""
  · have h := byPointer_Apply_unchanged (byPointer.New cl) (World.init st) r current s hget hdiff
    rw [h]
    refine ⟨rfl, fun _ => ⟨rfl, rfl⟩, fun hne => absurd hdiff hne, fun _ => rfl⟩
  · obtain ⟨_, h2, h3⟩ :=
      byPointer_Apply_update (byPointer.New cl) (World.init st) r current s hget hdiff
    have h3' : ((byPointer.New cl).Apply (World.init st) r).2.2.calls
        = [.Get (keyOf r) r.DeepCopyObject,
            .Update (.resource (r.SetResourceVersion current.GetResourceVersion))] := by
      rw [h3]; rfl
    refine ⟨by rw [h3']; rfl, fun he => absurd he hdiff, fun _ => ⟨h3', h2⟩, fun hu => ?_⟩
    rw [h2]
    exact hu

/-- Instances of the amended C8 in the spec's scenario, with the stored object
at resource-version "5": an empty diff leaves the desired object at "5"; with
five replicas desired, Update is handed the desired object at "5", and the
desired object comes back as the store's Update left it, unchanged for a store
that does not write into it. -/
theorem C8_resource_version_injection_witness :
    ((byPointer.New store.pointerMemory).Apply (World.init Example.holding)
        (Example.deployment "" 3)).2.1 = Example.deployment "5" 3
      ∧ ((byPointer.New store.pointerMemory).Apply (World.init Example.holding)
        (Example.deployment "" 5)).2.2.calls
        = [.Get (keyOf (Example.deployment "" 5)) (Example.deployment "" 5).DeepCopyObject,
            .Update (.resource (Example.deployment "5" 5))]
      ∧ ((byPointer.New store.pointerMemory).Apply (World.init Example.holding)
        (Example.deployment "" 5)).2.1
        = (store.pointerMemory.Update Example.holding (Example.deployment "5" 5)).2.1
      ∧ ((byPointer.New store.memory.asPointerClient).Apply (World.init Example.holding)
        (Example.deployment "" 5)).2.1 = Example.deployment "5" 5 :=
  ⟨((C8_resource_version_injection store.pointerMemory Example.holding
        (Example.deployment "" 3) Example.stored Example.holding rfl).2.1 (by decide)).1,
    ((C8_resource_version_injection store.pointerMemory Example.holding
        (Example.deployment "" 5) Example.stored Example.holding rfl).2.2.1 (by decide)).1,
    ((C8_resource_version_injection store.pointerMemory Example.holding
        (Example.deployment "" 5) Example.stored Example.holding rfl).2.2.1 (by decide)).2,
    (C8_resource_version_injection store.memory.asPointerClient Example.holding
        (Example.deployment "" 5) Example.stored Example.holding rfl).2.2.2 rfl⟩

/-- C8 as stated fails: with the stored object at resource-version "5" and five
replicas desired against three stored, Get succeeds with a metadata object, the
Update is handed the desired object and succeeds, and the store leaves its
answer in that object: after `Apply` the desired object is at resource-version
"6", not the fetched "5", and its UID and generation are the store's, not the
ones it had before the call. -/
theorem C8_counterexample :
    store.pointerMemory.Get Example.holding (keyOf (Example.deployment "" 5))
        (Example.deployment "" 5).DeepCopyObject
        = (none, .resource Example.stored, Example.holding)
      ∧ Example.stored.ObjectMeta.ResourceVersion = "5"
      ∧ ((byPointer.New store.pointerMemory).Apply (World.init Example.holding)
          (Example.deployment "" 5)).1 = none
      ∧ ((byPointer.New store.pointerMemory).Apply (World.init Example.holding)
          (Example.deployment "" 5)).2.1.ObjectMeta.ResourceVersion = "6"
      ∧ ((byPointer.New store.pointerMemory).Apply (World.init Example.holding)
          (Example.deployment "" 5)).2.1.ObjectMeta.ResourceVersion
          ≠ Example.stored.ObjectMeta.ResourceVersion
      ∧ (Example.deployment "" 5).ObjectMeta.UID = ""
      ∧ ((byPointer.New store.pointerMemory).Apply (World.init Example.holding)
          (Example.deployment "" 5)).2.1.ObjectMeta.UID = "uid-5"
      ∧ (Example.deployment "" 5).ObjectMeta.Generation = 0
      ∧ ((byPointer.New store.pointerMemory).Apply (World.init Example.holding)
          (Example.deployment "" 5)).2.1.ObjectMeta.Generation = 3 := by
  refine ⟨rfl, rfl, rfl, rfl, ?_, rfl, rfl, rfl, rfl⟩
  decide

end kubeclient

namespace kubeclient

/-- C9, as amended. The log events of an `Apply` call follow its outcome: exactly
["resource created"] when Create succeeded; exactly ["resource changes:\n" followed
by the diff text, "resource updated"] when Update succeeded; exactly
["resource unchanged"] when the diff was empty; exactly ["resource changes:\n"
followed by the diff text] when Update failed, because the diff text is logged
before Update is called; and none when Get fails with an error that is not
NotFound, when Create fails, or when the fetched object exposes no metadata. -/
theorem C9_log_events {σ : Type} (cl : client.Client σ) (st : σ) (r : resource) :
    (∀ (status : meta.Status) (o : runtime.Object) (s s' : σ),
        cl.Get st (keyOf r) r.DeepCopyObject = (some (.statusError status), o, s) →
        status.Code = 404 →
        cl.Create s (.resource r) = (none, s') →
        ((New cl).Apply (World.init st) r).2.2.messages = ["resource created"])
      ∧ (∀ (current : Resource) (s s' : σ),
        cl.Get st (keyOf r) r.DeepCopyObject = (none, .resource current, s) →
        cmp.Diff current (r.SetResourceVersion current.GetResourceVersion) options ≠ "" →
        cl.Update s (.resource (r.SetResourceVersion current.GetResourceVersion)) = (none, s') →
        ((New cl).Apply (World.init st) r).2.2.messages
          = ["resource changes:\n"
              ++ cmp.Diff current (r.SetResourceVersion current.GetResourceVersion) options,
             "resource updated"])
      ∧ (∀ (current : Resource) (s : σ),
        cl.Get st (keyOf r) r.DeepCopyObject = (none, .resource current, s) →
        cmp.Diff current (r.SetResourceVersion current.GetResourceVersion) options = "" →
        ((New cl).Apply (World.init st) r).2.2.messages = ["resource unchanged"])
      ∧ (∀ (current : Resource) (s s' : σ) (e : GoError),
        cl.Get st (keyOf r) r.DeepCopyObject = (none, .resource current, s) →
        cmp.Diff current (r.SetResourceVersion current.GetResourceVersion) options ≠ "" →
        cl.Update s (.resource (r.SetResourceVersion current.GetResourceVersion))
          = (some e, s') →
        ((New cl).Apply (World.init st) r).1 = some e
          ∧ ((New cl).Apply (World.init st) r).2.2.messages
            = ["resource changes:\n"
                ++ cmp.Diff current (r.SetResourceVersion current.GetResourceVersion) options])
      ∧ (∀ (e : GoError) (o : runtime.Object) (s : σ),
        cl.Get st (keyOf r) r.DeepCopyObject = (some e, o, s) →
        (¬ ∃ status : meta.Status, e = .statusError status ∧ status.Code = 404) →
        ((New cl).Apply (World.init st) r).2.2.messages = [])
      ∧ (∀ (status : meta.Status) (o : runtime.Object) (s s' : σ) (e : GoError),
        cl.Get st (keyOf r) r.DeepCopyObject = (some (.statusError status), o, s) →
        status.Code = 404 →
        cl.Create s (.resource r) = (some e, s') →
        ((New cl).Apply (World.init st) r).2.2.messages = [])
      ∧ (∀ (v : Value) (s : σ),
        cl.Get st (keyOf r) r.DeepCopyObject = (none, .other v, s) →
        ((New cl).Apply (World.init st) r).2.2.messages = []) := by
  refine ⟨?_, ?_, ?_, ?_, ?_, ?_, ?_⟩
  · intro status o s s' hget hcode hc
    have hnf : isNotFound (some (.statusError status)) = true :=
      (isNotFound_iff _).2 ⟨status, rfl, hcode⟩
    rw [Apply_created (New cl) (World.init st) r _ o s s' hget hnf hc]
    simp [World.init, World.messages]
  · intro current s s' hget hdiff hu
    rw [Apply_updated (New cl) (World.init st) r current s s' hget hdiff hu]
    simp [World.init, World.messages]
  · intro current s hget hdiff
    rw [Apply_unchanged (New cl) (World.init st) r current s hget hdiff]
    simp [World.init, World.messages]
  · intro current s s' e hget hdiff hu
    rw [Apply_updateFailed (New cl) (World.init st) r current s s' e hget hdiff hu]
    simp [World.init, World.messages]
  · intro e o s hget hne
    have hnf : isNotFound (some e) = false := by
      cases h : isNotFound (some e) with
      | false => rfl
      | true =>
        obtain ⟨status, hs, hc⟩ := (isNotFound_iff _).1 h
        exact absurd ⟨status, Option.some.inj hs, hc⟩ hne
    rw [Apply_getFailed (New cl) (World.init st) r e o s hget hnf]
    simp [World.init, World.messages]
  · intro status o s s' e hget hcode hc
    have hnf : isNotFound (some (.statusError status)) = true :=
      (isNotFound_iff _).2 ⟨status, rfl, hcode⟩
    rw [Apply_createFailed (New cl) (World.init st) r _ o s s' e hget hnf hc]
    simp [World.init, World.messages]
  · intro v s hget
    rw [Apply_invalid (New cl) (World.init st) r v s hget]
    simp [World.init, World.messages]

/-- Instances of the amended C9, one for each outcome. -/
theorem C9_log_events_witness :
    ((New (Example.scripted (some store.notFound, .other .null) none none)).Apply
        (World.init ()) (Example.deployment "" 3)).2.2.messages = ["resource created"]
      ∧ ((New store.memory).Apply (World.init Example.holding)
        (Example.deployment "" 5)).2.2.messages
        = ["resource changes:\n~ Spec.Replicas\n", "resource updated"]
      ∧ ((New store.memory).Apply (World.init Example.holding)
        (Example.deployment "" 3)).2.2.messages = ["resource unchanged"]
      ∧ (((New (Example.scripted (none, .resource Example.stored) none
            (some store.conflict))).Apply
          (World.init ()) (Example.deployment "" 5)).1 = some store.conflict
        ∧ ((New (Example.scripted (none, .resource Example.stored) none
            (some store.conflict))).Apply
          (World.init ()) (Example.deployment "" 5)).2.2.messages
          = ["resource changes:\n~ Spec.Replicas\n"])
      ∧ ((New (Example.scripted (some Example.unavailable, .other .null) none none)).Apply
        (World.init ()) (Example.deployment "" 3)).2.2.messages = []
      ∧ ((New (Example.scripted (some store.notFound, .other .null)
          (some store.alreadyExists) none)).Apply
        (World.init ()) (Example.deployment "" 3)).2.2.messages = []
      ∧ ((New (Example.scripted (none, .other .null) none none)).Apply
        (World.init ()) (Example.deployment "" 3)).2.2.messages = [] :=
  ⟨(C9_log_events (Example.scripted (some store.notFound, .other .null) none none) ()
      (Example.deployment "" 3)).1
      { Code := 404, Reason := "NotFound", Message := "not found" } _ () () rfl rfl rfl,
    (C9_log_events store.memory Example.holding (Example.deployment "" 5)).2.1
      Example.stored Example.holding
      { objects := [store.updated 6 Example.stored (Example.deployment "5" 5)], version := 6 }
      rfl (by decide) rfl,
    (C9_log_events store.memory Example.holding (Example.deployment "" 3)).2.2.1
      Example.stored Example.holding rfl (by decide),
    (C9_log_events
      (Example.scripted (none, .resource Example.stored) none (some store.conflict)) ()
      (Example.deployment "" 5)).2.2.2.1 Example.stored () () store.conflict rfl (by decide) rfl,
    (C9_log_events (Example.scripted (some Example.unavailable, .other .null) none none) ()
      (Example.deployment "" 3)).2.2.2.2.1 _ _ () rfl (by rintro ⟨status, h, _⟩; cases h),
    (C9_log_events
      (Example.scripted (some store.notFound, .other .null) (some store.alreadyExists) none) ()
      (Example.deployment "" 3)).2.2.2.2.2.1
      { Code := 404, Reason := "NotFound", Message := "not found" } _ () () store.alreadyExists
      rfl rfl rfl,
    (C9_log_events (Example.scripted (none, .other .null) none none) ()
      (Example.deployment "" 3)).2.2.2.2.2.2 .null () rfl⟩

/-- C9 as stated fails: when the Update is rejected with a version conflict,
`Apply` returns that error and the diff text has already been logged, so the
sequence of events of a call that returns an error is not empty. -/
theorem C9_counterexample :
    ((New (Example.scripted (none, .resource Example.stored) none (some store.conflict))).Apply
        (World.init ()) (Example.deployment "" 5)).1 = some store.conflict
      ∧ ((New (Example.scripted (none, .resource Example.stored) none
          (some store.conflict))).Apply
        (World.init ()) (Example.deployment "" 5)).2.2.messages
        = ["resource changes:\n~ Spec.Replicas\n"]
      ∧ ((New (Example.scripted (none, .resource Example.stored) none
          (some store.conflict))).Apply
        (World.init ()) (Example.deployment "" 5)).2.2.messages ≠ [] := by
  refine ⟨rfl, rfl, ?_⟩
  decide

/-- C10 (NotFound classification). `isNotFound(err)` is true exactly when `err`
is itself a `StatusError` whose status code is 404; it is false for nil, for a
`StatusError` with any other code, for a plain error and for an error that wraps
another one, even a 404 `StatusError`.  So `Apply` calls Create exactly when Get
returns such a direct 404 `StatusError`, and it returns every other non-nil Get
error after the Get alone. -/
theorem C10_isNotFound :
    (∀ err : Option GoError, isNotFound err = true ↔
        ∃ status : meta.Status, err = some (.statusError status) ∧ status.Code = 404)
      ∧ isNotFound none = false
      ∧ (∀ status : meta.Status, status.Code ≠ 404 →
          isNotFound (some (.statusError status)) = false)
      ∧ (∀ s : String, isNotFound (some (.errorString s)) = false)
      ∧ (∀ (msg : String) (inner : GoError), isNotFound (some (.wrapError msg inner)) = false)
      ∧ (∀ (σ : Type) (cl : client.Client σ) (st : σ) (r : resource),
          ((∃ obj : runtime.Object,
              Call.Create obj ∈ ((New cl).Apply (World.init st) r).2.2.calls) ↔
            ∃ status : meta.Status,
              (cl.Get st (keyOf r) r.DeepCopyObject).1 = some (.statusError status)
                ∧ status.Code = 404)
          ∧ (∀ e : GoError, (cl.Get st (keyOf r) r.DeepCopyObject).1 = some e →
              (¬ ∃ status : meta.Status, e = .statusError status ∧ status.Code = 404) →
              ((New cl).Apply (World.init st) r).1 = some e
                ∧ ((New cl).Apply (World.init st) r).2.2.calls
                  = [.Get (keyOf r) r.DeepCopyObject])) := by
  refine ⟨isNotFound_iff, rfl, ?_, fun _ => rfl, fun _ _ => rfl, ?_⟩
  · intro status h
    cases hnf : isNotFound (some (.statusError status)) with
    | false => rfl
    | true =>
      obtain ⟨status', hs, hc⟩ := (isNotFound_iff _).1 hnf
      cases hs
      exact absurd hc h
  · intro σ cl st r
    have key : ∀ e : GoError, (cl.Get st (keyOf r) r.DeepCopyObject).1 = some e →
        (¬ ∃ status : meta.Status, e = .statusError status ∧ status.Code = 404) →
        ((New cl).Apply (World.init st) r).1 = some e
          ∧ ((New cl).Apply (World.init st) r).2.2.calls
            = [.Get (keyOf r) r.DeepCopyObject] := by
      intro e he hne
      rcases hg : cl.Get st (keyOf r) r.DeepCopyObject with ⟨err, o, s⟩
      rw [hg] at he
      simp only at he
      subst he
      have hnf : isNotFound (some e) = false := by
        cases h : isNotFound (some e) with
        | false => rfl
        | true =>
          obtain ⟨status, hs, hc⟩ := (isNotFound_iff _).1 h
          exact absurd ⟨status, Option.some.inj hs, hc⟩ hne
      rw [Apply_getFailed (New cl) (World.init st) r e o s hg hnf]
      simp [World.init, Resource.DeepCopyObject]
    refine ⟨?_, key⟩
    rcases hg : cl.Get st (keyOf r) r.DeepCopyObject with ⟨err, o, s⟩
    cases hnf : isNotFound err with
    | true =>
      have hex := (isNotFound_iff _).1 hnf
      rcases hc : cl.Create s (.resource r) with ⟨e', s'⟩
      cases e' with
      | none =>
        rw [Apply_created (New cl) (World.init st) r _ o s s' hg hnf hc]
        simpa [World.init] using hex
      | some e' =>
        rw [Apply_createFailed (New cl) (World.init st) r _ o s s' e' hg hnf hc]
        simpa [World.init] using hex
    | false =>
      have hnex : ¬ ∃ status : meta.Status, err = some (.statusError status) ∧ status.Code = 404 := by
        intro h
        rw [(isNotFound_iff _).2 h] at hnf
        exact absurd hnf (by decide)
      simp only [hnex, iff_false]
      rintro ⟨obj, hmem⟩
      cases err with
      | some e =>
        rw [Apply_getFailed (New cl) (World.init st) r e o s hg hnf] at hmem
        simp [World.init] at hmem
      | none =>
        cases o with
        | other v =>
          rw [Apply_invalid (New cl) (World.init st) r v s hg] at hmem
          simp [World.init] at hmem
        | resource current =>
          by_cases hdiff :
            cmp.Diff current (r.SetResourceVersion current.GetResourceVersion) options = ""
          · rw [Apply_unchanged (New cl) (World.init st) r current s hg hdiff] at hmem
            simp [World.init] at hmem
          · rcases hu : cl.Update s
              (.resource (r.SetResourceVersion current.GetResourceVersion)) with ⟨e, s'⟩
            cases e with
            | none =>
              rw [Apply_updated (New cl) (World.init st) r current s s' hg hdiff hu] at hmem
              simp [World.init] at hmem
            | some e =>
              rw [Apply_updateFailed (New cl) (World.init st) r current s s' e hg hdiff hu]
                at hmem
              simp [World.init] at hmem

/-- Instances of C10: a direct 404 `StatusError` is NotFound and leads to Create;
an error that wraps a 404 `StatusError` is not, and is returned after the Get
alone. -/
theorem C10_isNotFound_witness :
    isNotFound (some store.notFound) = true
      ∧ isNotFound (some store.conflict) = false
      ∧ isNotFound (some Example.wrappedNotFound) = false
      ∧ (((New (Example.scripted (some Example.wrappedNotFound, .other .null) none none)).Apply
            (World.init ()) (Example.deployment "" 3)).1 = some Example.wrappedNotFound
        ∧ ((New (Example.scripted (some Example.wrappedNotFound, .other .null) none none)).Apply
            (World.init ()) (Example.deployment "" 3)).2.2.calls
          = [.Get (keyOf (Example.deployment "" 3)) (Example.deployment "" 3).DeepCopyObject])
      ∧ (∃ obj : runtime.Object, Call.Create obj ∈
          ((New (Example.scripted (some store.notFound, .other .null) none none)).Apply
            (World.init ()) (Example.deployment "" 3)).2.2.calls) :=
  ⟨(C10_isNotFound.1 (some store.notFound)).2
      ⟨{ Code := 404, Reason := "NotFound", Message := "not found" }, rfl, rfl⟩,
    C10_isNotFound.2.2.1
      { Code := 409, Reason := "Conflict", Message := "the object has been modified" }
      (by decide),
    C10_isNotFound.2.2.2.2.1 "get failed" store.notFound,
    (C10_isNotFound.2.2.2.2.2 Unit
      (Example.scripted (some Example.wrappedNotFound, .other .null) none none) ()
      (Example.deployment "" 3)).2 Example.wrappedNotFound rfl
      (by rintro ⟨status, h, _⟩; cases h),
    ((C10_isNotFound.2.2.2.2.2 Unit
      (Example.scripted (some store.notFound, .other .null) none none) ()
      (Example.deployment "" 3)).1).2
      ⟨{ Code := 404, Reason := "NotFound", Message := "not found" }, rfl, rfl⟩⟩

end kubeclient

namespace kubeclient

/-- C2 (update-on-real-diff). Whenever Get succeeds with a stored object that
differs from `r` in at least one field outside the eight ignored paths (the
Kind, the name, the namespace, the labels, the annotations, the `Spec` or the
`Status`, at any depth), `Apply(r)` issues exactly two store calls, the Get and
one Update; no Create is issued; and the object handed to Update is `r` with its
resource-version replaced by the stored object's resource-version. -/
theorem C2_update_on_real_diff {σ : Type} (cl : client.Client σ) (st : σ) (r : resource)
    (current : Resource) (s : σ)
    (hget : cl.Get st (keyOf r) r.DeepCopyObject = (none, .resource current, s))
    (hdiff : current.TypeMeta.Kind ≠ r.TypeMeta.Kind
      ∨ current.ObjectMeta.Name ≠ r.ObjectMeta.Name
      ∨ current.ObjectMeta.Namespace ≠ r.ObjectMeta.Namespace
      ∨ current.ObjectMeta.Labels ≠ r.ObjectMeta.Labels
      ∨ current.ObjectMeta.Annotations ≠ r.ObjectMeta.Annotations
      ∨ current.Spec ≠ r.Spec
      ∨ current.Status ≠ r.Status) :
    ((New cl).Apply (World.init st) r).2.2.calls
        = [.Get (keyOf r) r.DeepCopyObject,
            .Update (.resource { r with ObjectMeta :=
              { r.ObjectMeta with ResourceVersion := current.ObjectMeta.ResourceVersion } })]
      ∧ ((New cl).Apply (World.init st) r).2.2.writes.length = 1 := by
  have hne : cmp.Diff current (r.SetResourceVersion current.GetResourceVersion) options ≠ "" := by
    intro h
    have h7 := (Diff_eq_empty_iff _ _).1 h
    simp only [Resource.SetResourceVersion] at h7
    tauto
  rcases hu : cl.Update s (.resource (r.SetResourceVersion current.GetResourceVersion))
    with ⟨e, s'⟩
  cases e with
  | none =>
    rw [Apply_updated (New cl) (World.init st) r current s s' hget hne hu]
    exact ⟨rfl, rfl⟩
  | some e =>
    rw [Apply_updateFailed (New cl) (World.init st) r current s s' e hget hne hu]
    exact ⟨rfl, rfl⟩

/-- The instance of C2 in the spec's scenario: stored ResourceVersion "5" and
three replicas, desired five replicas: one Update carrying ResourceVersion "5". -/
theorem C2_update_on_real_diff_witness :
    ((New store.memory).Apply (World.init Example.holding) (Example.deployment "" 5)).2.2.calls
        = [.Get (keyOf (Example.deployment "" 5)) (Example.deployment "" 5).DeepCopyObject,
            .Update (.resource (Example.deployment "5" 5))]
      ∧ ((New store.memory).Apply (World.init Example.holding)
          (Example.deployment "" 5)).2.2.writes.length = 1 :=
  C2_update_on_real_diff store.memory Example.holding (Example.deployment "" 5) Example.stored
    Example.holding rfl
    (Or.inr (Or.inr (Or.inr (Or.inr (Or.inr (Or.inl
      (by simp [Example.stored, Example.deployment])))))))

/-- C3 (no-op on equal, exclusion completeness). Whenever Get succeeds with a
stored object that agrees with `r` on every field outside the eight
server-managed paths (so they may differ in any or all of SelfLink, UID,
ResourceVersion, Generation, CreationTimestamp, Finalizers, ManagedFields and
APIVersion, at any depth), the filtered diff is empty, before and after the
resource-version is copied, `Apply(r)` issues no store call besides the Get
(neither Create nor Update), reports "resource unchanged" and returns nil. -/
theorem C3_noop_on_equal {σ : Type} (cl : client.Client σ) (st : σ) (r : resource)
    (current : Resource) (s : σ)
    (hget : cl.Get st (keyOf r) r.DeepCopyObject = (none, .resource current, s))
    (hkind : current.TypeMeta.Kind = r.TypeMeta.Kind)
    (hname : current.ObjectMeta.Name = r.ObjectMeta.Name)
    (hnamespace : current.ObjectMeta.Namespace = r.ObjectMeta.Namespace)
    (hlabels : current.ObjectMeta.Labels = r.ObjectMeta.Labels)
    (hannotations : current.ObjectMeta.Annotations = r.ObjectMeta.Annotations)
    (hspec : current.Spec = r.Spec)
    (hstatus : current.Status = r.Status) :
    cmp.Diff current r options = ""
      ∧ cmp.Diff current { r with ObjectMeta :=
          { r.ObjectMeta with ResourceVersion := current.ObjectMeta.ResourceVersion } } options = ""
      ∧ ((New cl).Apply (World.init st) r).2.2.calls = [.Get (keyOf r) r.DeepCopyObject]
      ∧ ((New cl).Apply (World.init st) r).2.2.writes = []
      ∧ ((New cl).Apply (World.init st) r).2.2.messages = ["resource unchanged"]
      ∧ ((New cl).Apply (World.init st) r).1 = none := by
  have h1 : cmp.Diff current r options = "" :=
    (Diff_eq_empty_iff _ _).2 ⟨hkind, hname, hnamespace, hlabels, hannotations, hspec, hstatus⟩
  have h2 : cmp.Diff current (r.SetResourceVersion current.GetResourceVersion) options = "" :=
    (Diff_eq_empty_iff _ _).2 ⟨hkind, hname, hnamespace, hlabels, hannotations, hspec, hstatus⟩
  rw [Apply_unchanged (New cl) (World.init st) r current s hget h2]
  exact ⟨h1, h2, rfl, rfl, rfl, rfl⟩

/-- The instance of C3 in the spec's scenario, with the stored object differing
from the desired one in all eight server-managed paths at once. -/
theorem C3_noop_on_equal_witness :
    cmp.Diff Example.stored (Example.deployment "" 3) options = ""
      ∧ cmp.Diff Example.stored (Example.deployment "5" 3) options = ""
      ∧ ((New store.memory).Apply (World.init Example.holding)
          (Example.deployment "" 3)).2.2.calls
        = [.Get (keyOf (Example.deployment "" 3)) (Example.deployment "" 3).DeepCopyObject]
      ∧ ((New store.memory).Apply (World.init Example.holding)
          (Example.deployment "" 3)).2.2.writes = []
      ∧ ((New store.memory).Apply (World.init Example.holding)
          (Example.deployment "" 3)).2.2.messages = ["resource unchanged"]
      ∧ ((New store.memory).Apply (World.init Example.holding) (Example.deployment "" 3)).1
        = none :=
  C3_noop_on_equal store.memory Example.holding (Example.deployment "" 3) Example.stored
    Example.holding rfl rfl rfl rfl rfl rfl rfl rfl

end kubeclient

/-! ## Two calls in succession against the in-memory store -/

namespace store

theorem hasKey_keyOf (r : Resource) : hasKey (kubeclient.keyOf r) r = true := by
  simp [hasKey, kubeclient.keyOf, Resource.GetNamespace, Resource.GetName]

theorem lookup_append_of_none (st : State) (key : client.ObjectKey) (x : Resource) (n : Nat)
    (h : lookup st key = none) (hx : hasKey key x = true) :
    lookup { objects := st.objects ++ [x], version := n } key = some x := by
  unfold lookup at *
  simp [List.find?_append, h, hx]

theorem find_replace (key : client.ObjectKey) (old x : Resource) (l : List Resource)
    (h : l.find? (hasKey key) = some old) (hx : hasKey key x = true) :
    (replace key x l).find? (hasKey key) = some x := by
  induction l with
  | nil => simp at h
  | cons a l ih =>
    by_cases ha : hasKey key a = true
    · simp [replace, List.find?, ha, hx]
    · simp only [Bool.not_eq_true] at ha
      simp only [List.find?, ha] at h
      have := ih h
      simp only [replace] at this
      simp [replace, List.find?, ha, this]

theorem lookup_replace_of_some (st : State) (key : client.ObjectKey) (old x : Resource)
    (n : Nat) (h : lookup st key = some old) (hx : hasKey key x = true) :
    lookup { objects := replace key x st.objects, version := n } key = some x :=
  find_replace key old x st.objects h hx

end store

namespace kubeclient

theorem memory_first_absent (st : store.State) (D : resource)
    (h : store.lookup st (keyOf D) = none) :
    (New store.memory).Apply (World.init st) D = (none, D,
      { store := { objects := st.objects ++ [store.created (st.version + 1) D],
                   version := st.version + 1 },
        calls := [.Get (keyOf D) (.resource D), .Create (.resource D)],
        events := [{ logger := reqLogOf D, msg := "resource created" }] }) := by
  have hget : (New store.memory).Client.Get (World.init st).store (keyOf D) (.resource D)
      = (some store.notFound, .resource D, st) := by
    simp [New, store.memory, store.Get, World.init, h]
  have hcreate : (New store.memory).Client.Create st (.resource D)
      = (none, { objects := st.objects ++ [store.created (st.version + 1) D],
                 version := st.version + 1 }) := by
    simp [New, store.memory, store.Create, h]
  rw [Apply_created (New store.memory) (World.init st) D _ _ st _ hget rfl hcreate]
  rfl

theorem memory_unchanged (st : store.State) (r : resource) (s : Resource)
    (h : store.lookup st (keyOf r) = some s)
    (hdiff : cmp.Diff s (r.SetResourceVersion s.GetResourceVersion) options = "") :
    (New store.memory).Apply (World.init st) r
      = (none, r.SetResourceVersion s.GetResourceVersion,
          { store := st, calls := [.Get (keyOf r) (.resource r)],
            events := [{ logger := reqLogOf r, msg := "resource unchanged" }] }) := by
  have hget : (New store.memory).Client.Get (World.init st).store (keyOf r) (.resource r)
      = (none, .resource s, st) := by
    simp [New, store.memory, store.Get, World.init, h]
  rw [Apply_unchanged (New store.memory) (World.init st) r s st hget hdiff]
  rfl

theorem memory_first_differs (st : store.State) (D : resource) (s : Resource)
    (h : store.lookup st (keyOf D) = some s)
    (hdiff : cmp.Diff s (D.SetResourceVersion s.GetResourceVersion) options ≠ "") :
    (New store.memory).Apply (World.init st) D
      = (none, D.SetResourceVersion s.GetResourceVersion,
          { store :=
              { objects := store.replace (keyOf D)
                  (store.updated (st.version + 1) s (D.SetResourceVersion s.GetResourceVersion))
                  st.objects,
                version := st.version + 1 },
            calls := [.Get (keyOf D) (.resource D),
              .Update (.resource (D.SetResourceVersion s.GetResourceVersion))],
            events := [{ logger := reqLogOf D, msg := ("resource changes:\n" ++
                cmp.Diff s (D.SetResourceVersion s.GetResourceVersion) options) },
              { logger := reqLogOf D, msg := "resource updated" }] }) := by
  have hget : (New store.memory).Client.Get (World.init st).store (keyOf D) (.resource D)
      = (none, .resource s, st) := by
    simp [New, store.memory, store.Get, World.init, h]
  have hk : keyOf (D.SetResourceVersion s.GetResourceVersion) = keyOf D := rfl
  have hupdate : (New store.memory).Client.Update st
      (.resource (D.SetResourceVersion s.GetResourceVersion))
      = (none, store.State.mk (store.replace (keyOf D)
          (store.updated (st.version + 1) s (D.SetResourceVersion s.GetResourceVersion))
          st.objects) (st.version + 1)) := by
    have hrv : (D.SetResourceVersion s.GetResourceVersion).ObjectMeta.ResourceVersion
        = s.ObjectMeta.ResourceVersion := rfl
    simp [New, store.memory, store.Update, hk, h, hrv]
  rw [Apply_updated (New store.memory) (World.init st) D s st _ hget hdiff hupdate]
  rfl

end kubeclient

namespace kubeclient

theorem applyTwice_absent (st : store.State) (D : resource)
    (h : store.lookup st (keyOf D) = none) :
    applyTwice store.memory st D =
      ((none, D,
        { store := { objects := st.objects ++ [store.created (st.version + 1) D],
                     version := st.version + 1 },
          calls := [.Get (keyOf D) (.resource D), .Create (.resource D)],
          events := [{ logger := reqLogOf D, msg := "resource created" }] }),
       (none, D.SetResourceVersion (store.created (st.version + 1) D).GetResourceVersion,
        { store := { objects := st.objects ++ [store.created (st.version + 1) D],
                     version := st.version + 1 },
          calls := [.Get (keyOf D) (.resource D)],
          events := [{ logger := reqLogOf D, msg := "resource unchanged" }] })) := by
  have hl : store.lookup
      (store.State.mk (st.objects ++ [store.created (st.version + 1) D]) (st.version + 1))
      (keyOf D) = some (store.created (st.version + 1) D) :=
    store.lookup_append_of_none st (keyOf D) _ _ h (store.hasKey_keyOf D)
  have hd : cmp.Diff (store.created (st.version + 1) D)
      (D.SetResourceVersion (store.created (st.version + 1) D).GetResourceVersion) options
      = "" :=
    (Diff_eq_empty_iff _ _).2 ⟨rfl, rfl, rfl, rfl, rfl, rfl, rfl⟩
  simp only [applyTwice, memory_first_absent st D h]
  rw [memory_unchanged _ D _ hl hd]

theorem applyTwice_agrees (st : store.State) (D : resource) (s : Resource)
    (h : store.lookup st (keyOf D) = some s)
    (hdiff : cmp.Diff s (D.SetResourceVersion s.GetResourceVersion) options = "") :
    applyTwice store.memory st D =
      ((none, D.SetResourceVersion s.GetResourceVersion,
        { store := st, calls := [.Get (keyOf D) (.resource D)],
          events := [{ logger := reqLogOf D, msg := "resource unchanged" }] }),
       (none, D.SetResourceVersion s.GetResourceVersion,
        { store := st,
          calls := [.Get (keyOf D) (.resource (D.SetResourceVersion s.GetResourceVersion))],
          events := [{ logger := reqLogOf D, msg := "resource unchanged" }] })) := by
  simp only [applyTwice, memory_unchanged st D s h hdiff]
  rw [memory_unchanged st (D.SetResourceVersion s.GetResourceVersion) s h hdiff]
  rfl

theorem applyTwice_differs (st : store.State) (D : resource) (s : Resource)
    (h : store.lookup st (keyOf D) = some s)
    (hdiff : cmp.Diff s (D.SetResourceVersion s.GetResourceVersion) options ≠ "") :
    applyTwice store.memory st D =
      ((none, D.SetResourceVersion s.GetResourceVersion,
        { store := store.State.mk (store.replace (keyOf D)
            (store.updated (st.version + 1) s (D.SetResourceVersion s.GetResourceVersion))
            st.objects) (st.version + 1),
          calls := [.Get (keyOf D) (.resource D),
            .Update (.resource (D.SetResourceVersion s.GetResourceVersion))],
          events := [{ logger := reqLogOf D, msg := ("resource changes:\n" ++
              cmp.Diff s (D.SetResourceVersion s.GetResourceVersion) options) },
            { logger := reqLogOf D, msg := "resource updated" }] }),
       (none, (D.SetResourceVersion s.GetResourceVersion).SetResourceVersion
          (store.updated (st.version + 1) s
            (D.SetResourceVersion s.GetResourceVersion)).GetResourceVersion,
        { store := store.State.mk (store.replace (keyOf D)
            (store.updated (st.version + 1) s (D.SetResourceVersion s.GetResourceVersion))
            st.objects) (st.version + 1),
          calls := [.Get (keyOf D) (.resource (D.SetResourceVersion s.GetResourceVersion))],
          events := [{ logger := reqLogOf D, msg := "resource unchanged" }] })) := by
  have hl : store.lookup
      (store.State.mk (store.replace (keyOf D)
        (store.updated (st.version + 1) s (D.SetResourceVersion s.GetResourceVersion))
        st.objects) (st.version + 1))
      (keyOf (D.SetResourceVersion s.GetResourceVersion))
      = some (store.updated (st.version + 1) s (D.SetResourceVersion s.GetResourceVersion)) :=
    store.lookup_replace_of_some st (keyOf D) s _ _ h (store.hasKey_keyOf D)
  have hd : cmp.Diff
      (store.updated (st.version + 1) s (D.SetResourceVersion s.GetResourceVersion))
      ((D.SetResourceVersion s.GetResourceVersion).SetResourceVersion
        (store.updated (st.version + 1) s
          (D.SetResourceVersion s.GetResourceVersion)).GetResourceVersion) options = "" :=
    (Diff_eq_empty_iff _ _).2 ⟨rfl, rfl, rfl, rfl, rfl, rfl, rfl⟩
  simp only [applyTwice, memory_first_differs st D s h hdiff]
  rw [memory_unchanged _ (D.SetResourceVersion s.GetResourceVersion) _ hl hd]
  rfl

/-- C4, as amended. Against a store that keeps what it is handed and fills in
the server-managed fields itself, with nothing else touching the store between
the calls, calling `Apply(D)` twice in succession results in at most one write
in total, and both calls return nil: the first call issues one Create when no
object is stored under the key of `D`, one Update when the stored object differs
from `D` outside the server-managed paths, and no write when it agrees with `D`
outside them; the second call observes an empty diff, reports "resource
unchanged" and issues neither Create nor Update. -/
theorem C4_idempotence (st : store.State) (D : resource) :
    (applyTwice store.memory st D).1.1 = none
      ∧ (applyTwice store.memory st D).2.1 = none
      ∧ (applyTwice store.memory st D).2.2.2.writes = []
      ∧ (applyTwice store.memory st D).2.2.2.messages = ["resource unchanged"]
      ∧ ((applyTwice store.memory st D).1.2.2.writes
            ++ (applyTwice store.memory st D).2.2.2.writes).length ≤ 1
      ∧ (store.lookup st (keyOf D) = none →
          (applyTwice store.memory st D).1.2.2.writes = [.Create (.resource D)])
      ∧ (∀ s : Resource, store.lookup st (keyOf D) = some s →
          (s.TypeMeta.Kind ≠ D.TypeMeta.Kind
            ∨ s.ObjectMeta.Name ≠ D.ObjectMeta.Name
            ∨ s.ObjectMeta.Namespace ≠ D.ObjectMeta.Namespace
            ∨ s.ObjectMeta.Labels ≠ D.ObjectMeta.Labels
            ∨ s.ObjectMeta.Annotations ≠ D.ObjectMeta.Annotations
            ∨ s.Spec ≠ D.Spec
            ∨ s.Status ≠ D.Status) →
          (applyTwice store.memory st D).1.2.2.writes
            = [.Update (.resource { D with ObjectMeta :=
                { D.ObjectMeta with ResourceVersion := s.ObjectMeta.ResourceVersion } })])
      ∧ (∀ s : Resource, store.lookup st (keyOf D) = some s →
          s.TypeMeta.Kind = D.TypeMeta.Kind →
          s.ObjectMeta.Name = D.ObjectMeta.Name →
          s.ObjectMeta.Namespace = D.ObjectMeta.Namespace →
          s.ObjectMeta.Labels = D.ObjectMeta.Labels →
          s.ObjectMeta.Annotations = D.ObjectMeta.Annotations →
          s.Spec = D.Spec →
          s.Status = D.Status →
          (applyTwice store.memory st D).1.2.2.writes = []) := by
  cases h : store.lookup st (keyOf D) with
  | none =>
    rw [applyTwice_absent st D h]
    refine ⟨rfl, rfl, rfl, rfl, by simp [World.writes, Call.isWrite], fun _ => rfl, ?_, ?_⟩
    · intro s hs; cases hs
    · intro s hs; cases hs
  | some s =>
    by_cases hdiff : cmp.Diff s (D.SetResourceVersion s.GetResourceVersion) options = ""
    · have h7 := (Diff_eq_empty_iff _ _).1 hdiff
      simp only [Resource.SetResourceVersion] at h7
      rw [applyTwice_agrees st D s h hdiff]
      refine ⟨rfl, rfl, rfl, rfl, by simp [World.writes, Call.isWrite], ?_, ?_, ?_⟩
      · intro hn; cases hn
      · intro s' hs' hne
        cases hs'
        tauto
      · intros; rfl
    · rw [applyTwice_differs st D s h hdiff]
      refine ⟨rfl, rfl, rfl, rfl, by simp [World.writes, Call.isWrite], ?_, ?_, ?_⟩
      · intro hn; cases hn
      · intro s' hs' _
        cases hs'
        rfl
      · intro s' hs' a1 a2 a3 a4 a5 a6 a7
        cases hs'
        exact absurd ((Diff_eq_empty_iff _ _).2 ⟨a1, a2, a3, a4, a5, a6, a7⟩) hdiff

/-- Instances of the amended C4: the store holds nothing (one Create), the
store holds a differing object (one Update), the store holds an agreeing object
(no write). -/
theorem C4_idempotence_witness :
    (applyTwice store.memory { objects := [], version := 0 } (Example.deployment "" 3)).1.2.2.writes
        = [.Create (.resource (Example.deployment "" 3))]
      ∧ (applyTwice store.memory Example.holding (Example.deployment "" 5)).1.2.2.writes
        = [.Update (.resource (Example.deployment "5" 5))]
      ∧ (applyTwice store.memory Example.holding (Example.deployment "" 3)).1.2.2.writes = [] :=
  ⟨(C4_idempotence { objects := [], version := 0 } (Example.deployment "" 3)).2.2.2.2.2.1 rfl,
    (C4_idempotence Example.holding (Example.deployment "" 5)).2.2.2.2.2.2.1 Example.stored rfl
      (Or.inr (Or.inr (Or.inr (Or.inr (Or.inr (Or.inl
        (by simp [Example.stored, Example.deployment]))))))),
    (C4_idempotence Example.holding (Example.deployment "" 3)).2.2.2.2.2.2.2 Example.stored rfl
      rfl rfl rfl rfl rfl rfl rfl⟩

/-- C4 as stated fails: when the store already holds an object that agrees with
`D` outside the server-managed paths, two `Apply(D)` calls in succession issue no
write at all, not one: the first call issues neither Create nor Update. -/
theorem C4_counterexample :
    (applyTwice store.memory Example.holding (Example.deployment "" 3)).1.1 = none
      ∧ (applyTwice store.memory Example.holding (Example.deployment "" 3)).1.2.2.writes = []
      ∧ (applyTwice store.memory Example.holding (Example.deployment "" 3)).2.2.2.writes = []
      ∧ ((applyTwice store.memory Example.holding (Example.deployment "" 3)).1.2.2.writes
          ++ (applyTwice store.memory Example.holding
            (Example.deployment "" 3)).2.2.2.writes).length ≠ 1 := by
  refine ⟨rfl, rfl, rfl, ?_⟩
  decide

end kubeclient
